import Mathlib

/-!
# Order service: retrieval and enrichment of a user's orders

Shallow embedding of

* `models/order.go`, `models/restaurant.go` : the data model,
* `services/order_service.go` : `orderService.FindAllOrdersByUserID`,
* `clients/restaurant/client.go` : `client.GetRestaurantsByIDs`,
* `handlers/order.go` : `Provider.FindOrdersForUser`,
* `repositories/order_repository.go` : `orderRepository.FindAllOrdersByUserID`.

Conventions of the embedding.

* A Go `int` identifier is an `Int`; the code does no arithmetic on identifiers.
* A Go slice is `Slice α := Option (List α)`: `none` is the nil slice, `some xs`
  a non-nil slice with elements `xs` (`some []` is the empty non-nil slice).
* `*Order` is `Ptr := Option Nat`: `none` is the nil pointer, `some a` the
  address of an order object in the `Heap`. Several entries of a slice may hold
  the same address (aliasing). `*Restaurant` is `Option Restaurant`; restaurant
  objects are never written by the embedded code, so they are kept by value.
* A function that can dereference a nil pointer has an explicit panic outcome.
* The collaborators behind Go interfaces (repository, lookup client, HTTP
  transport, environment) are parameters; calls made to them are recorded.
* Library code is modelled from its documented behaviour: `encoding/json` on
  the tagged structs, `strconv.Atoi` and `strconv.Itoa`, and the query go-pg
  sends to the store (rows filtered by the `WHERE` column, sorted by the
  `ORDER BY` column).
-/

/-- Go `error` value, identified by the text of its `Error()` method. -/
structure GoError where
  msg : String
deriving DecidableEq, Repr

/-- Go slice: `none` is the nil slice, `some xs` a non-nil slice. -/
abbrev Slice (α : Type) := Option (List α)

namespace Slice

/-- Go builtin `len`: the nil slice has length zero. -/
def len {α : Type} : Slice α → Nat
  | none => 0
  | some xs => xs.length

/-- Elements visited by `for _, x := range s`: none for the nil slice. -/
def elems {α : Type} : Slice α → List α
  | none => []
  | some xs => xs

end Slice

namespace models

/-- `models.Restaurant`. -/
structure Restaurant where
  ID : Int
  Name : String
deriving DecidableEq, Repr

/-- `models.Order`; `PlacedAt` is the instant of the `time.Time` value. The
field `Restaurant` is the `*Restaurant` pointer, `none` when nil. -/
structure Order where
  ID : Int
  UserID : Int
  RestaurantID : Int
  Restaurant : Option models.Restaurant
  Total : Int
  CurrencyCode : String
  PlacedAt : Int
deriving DecidableEq, Repr

end models

/-- `*models.Order`: nil or the address of an order object. -/
abbrev Ptr := Option Nat

/-- Object store holding the `models.Order` objects, by address. -/
abbrev Heap := Nat → models.Order

/-- `models.Orders`, a slice of order pointers. -/
abbrev models.Orders := Slice Ptr

/-- `models.Restaurants`, a slice of restaurant pointers. -/
abbrev models.Restaurants := Slice (Option models.Restaurant)

/-- Go map `map[int]*models.Restaurant`; `none` when the key is absent. -/
abbrev RestaurantMap := Int → Option models.Restaurant

/-- Value returned by a Go function: either its two results or a run-time panic
(nil pointer dereference). -/
inductive Outcome (α : Type) where
  | ret (val : α) (err : Option GoError)
  | panic
deriving DecidableEq, Repr

namespace orderService

/-- `errors.Errorf("restaurant with ID %d not found", id)`. -/
def notFoundError (id : Int) : GoError :=
  ⟨"restaurant with ID " ++ toString id ++ " not found"⟩

/-- First loop of `FindAllOrdersByUserID` (lines 64-67): appends
`order.RestaurantID` for each order to `restaurantIDs`; `none` when an order
pointer is nil (the field access panics). -/
def collectRestaurantIDs (h : Heap) : List Ptr → List Int → Option (List Int)
  | [], restaurantIDs => some restaurantIDs
  | none :: _, _ => none
  | some a :: rest, restaurantIDs =>
      collectRestaurantIDs h rest (restaurantIDs ++ [(h a).RestaurantID])

/-- Second loop (lines 74-77): `restaurantsByID[restaurant.ID] = restaurant`
for each returned restaurant; `none` when a restaurant pointer is nil. -/
def indexByID : List (Option models.Restaurant) → RestaurantMap → Option RestaurantMap
  | [], restaurantsByID => some restaurantsByID
  | none :: _, _ => none
  | some r :: rest, restaurantsByID =>
      indexByID rest (fun k => if k = r.ID then some r else restaurantsByID k)

/-- How the third loop ends. -/
inductive AttachResult where
  | done
  | missing (restaurantID : Int)
  | nilOrder
deriving DecidableEq, Repr

/-- Third loop (lines 79-86): looks each order up in `restaurantsByID`; when the
key is absent the loop stops with the identifier, otherwise the order object is
updated in place with `order.Restaurant = restaurant`. -/
def attachRestaurants (restaurantsByID : RestaurantMap) : List Ptr → Heap → AttachResult × Heap
  | [], h => (AttachResult.done, h)
  | none :: _, h => (AttachResult.nilOrder, h)
  | some a :: rest, h =>
      match restaurantsByID (h a).RestaurantID with
      | none => (AttachResult.missing (h a).RestaurantID, h)
      | some r =>
          attachRestaurants restaurantsByID rest
            (Function.update h a { h a with Restaurant := some r })

/-- Observable result of one call of the service: what it returned, the order
objects afterwards, and the arguments of each `GetRestaurantsByIDs` call made. -/
structure Run where
  outcome : Outcome models.Orders
  heap : Heap
  lookups : List (List Int)

/-- `orderService.FindAllOrdersByUserID` (lines 54-89). `orderRepository` and
`restaurantClient` are the two injected collaborators, given by what they
return; `h` holds the order objects the repository hands out. -/
def FindAllOrdersByUserID
    (orderRepository : Int → models.Orders × Option GoError)
    (restaurantClient : List Int → models.Restaurants × Option GoError)
    (h : Heap) (userID : Int) : Run :=
  match orderRepository userID with
  | (_, some err) => ⟨Outcome.ret none (some err), h, []⟩
  | (orders, none) =>
    if Slice.len orders = 0 then ⟨Outcome.ret orders none, h, []⟩
    else
      match collectRestaurantIDs h (Slice.elems orders) [] with
      | none => ⟨Outcome.panic, h, []⟩
      | some restaurantIDs =>
        match restaurantClient restaurantIDs with
        | (_, some err) => ⟨Outcome.ret none (some err), h, [restaurantIDs]⟩
        | (restaurants, none) =>
          match indexByID (Slice.elems restaurants) (fun _ => none) with
          | none => ⟨Outcome.panic, h, [restaurantIDs]⟩
          | some restaurantsByID =>
            match attachRestaurants restaurantsByID (Slice.elems orders) h with
            | (AttachResult.done, h') => ⟨Outcome.ret orders none, h', [restaurantIDs]⟩
            | (AttachResult.missing id, h') =>
                ⟨Outcome.ret none (some (notFoundError id)), h', [restaurantIDs]⟩
            | (AttachResult.nilOrder, h') => ⟨Outcome.panic, h', [restaurantIDs]⟩

/-- The restaurant identifiers referenced by the orders at `addrs`, in order. -/
def restaurantIDsOf (h : Heap) (addrs : List Nat) : List Int :=
  addrs.map (fun a => (h a).RestaurantID)

/-- The order at `a` with `r` attached, everything else as it is. -/
def enriched (h : Heap) (a : Nat) (r : models.Restaurant) : models.Order :=
  { h a with Restaurant := some r }

/-- The placement instants of the orders of a sequence, in sequence order, read
in the object store `h`. -/
def placedAts (h : Heap) (s : models.Orders) : List Int :=
  ((Slice.elems s).filterMap id).map (fun a => (h a).PlacedAt)

/-- The sequence is sorted by `PlacedAt` descending (latest first). -/
def DescendingByPlacedAt (h : Heap) (s : models.Orders) : Prop :=
  List.Pairwise (fun t u => u ≤ t) (placedAts h s)

/-- What the service returns for each way the third loop can end. -/
def outcomeOf (orders : models.Orders) : AttachResult → Outcome models.Orders
  | AttachResult.done => Outcome.ret orders none
  | AttachResult.missing id => Outcome.ret none (some (notFoundError id))
  | AttachResult.nilOrder => Outcome.panic

end orderService

/-! ## Restaurant lookup client (`clients/restaurant/client.go`) -/

/-- JSON value carried by a syntactically valid response body. -/
inductive Json where
  | null
  | bool (b : Bool)
  | number (n : Int)
  | string (s : String)
  | array (items : List Json)
  | object (members : List (String × Json))

namespace json

/-- Field lookup of `encoding/json` for the struct `models.Restaurant`. The
struct tags are `ID int "json:-"` and `Name string "json:name"`: the tag `-`
removes `ID` from the fields known to the decoder, so `Name` is the only field,
matched by its exact key or case-insensitively. -/
def matchesName (key : String) : Bool :=
  key == "name" || key.data.map Char.toLower == ['n', 'a', 'm', 'e']

/-- Name `encoding/json` gives to the kind of a JSON value in its errors. -/
def kind : Json → String
  | Json.null => "null"
  | Json.bool _ => "bool"
  | Json.number _ => "number"
  | Json.string _ => "string"
  | Json.array _ => "array"
  | Json.object _ => "object"

/-- The `UnmarshalTypeError` reported for a value of the wrong JSON kind. -/
def typeError (v : Json) (target : String) : GoError :=
  ⟨"json: cannot unmarshal " ++ kind v ++ " into Go " ++ target⟩

/-- Decoding of the members of a JSON object into a `models.Restaurant`: a
member whose key matches `Name` stores a string (null leaves the field as it
is, another kind is a type error); every other member, `id` included, is
skipped. -/
def decodeMembers : List (String × Json) → models.Restaurant → Except GoError models.Restaurant
  | [], r => Except.ok r
  | (key, v) :: rest, r =>
      if matchesName key then
        match v with
        | Json.string s => decodeMembers rest { r with Name := s }
        | Json.null => decodeMembers rest r
        | _ => Except.error (typeError v "struct field Restaurant.name of type string")
      else decodeMembers rest r

/-- Decoding of one array element into a `*models.Restaurant`: null gives the
nil pointer, an object a freshly allocated zero `Restaurant` filled from its
members. -/
def decodeElement : Json → Except GoError (Option models.Restaurant)
  | Json.null => Except.ok none
  | Json.object members =>
      match decodeMembers members { ID := 0, Name := "" } with
      | Except.ok r => Except.ok (some r)
      | Except.error e => Except.error e
  | v => Except.error (typeError v "value of type models.Restaurant")

/-- Decoding of the elements of a JSON array, in order. -/
def decodeElements : List Json → Except GoError (List (Option models.Restaurant))
  | [] => Except.ok []
  | v :: rest =>
      match decodeElement v with
      | Except.error e => Except.error e
      | Except.ok r =>
          match decodeElements rest with
          | Except.error e => Except.error e
          | Except.ok rs => Except.ok (r :: rs)

/-- `json.Unmarshal(body, &parsedBody)` with `parsedBody` of type
`models.Restaurants`: null gives the nil slice, an array a non-nil slice of its
decoded elements, any other kind a type error. -/
def Unmarshal : Json → Except GoError models.Restaurants
  | Json.null => Except.ok none
  | Json.array items =>
      match decodeElements items with
      | Except.ok rs => Except.ok (some rs)
      | Except.error e => Except.error e
  | v => Except.error (typeError v "value of type models.Restaurants")

/-- The JSON object with the two members `id` and `name`, in this order. -/
def restaurantObject (p : Int × String) : Json :=
  Json.object [("id", Json.number p.1), ("name", Json.string p.2)]

end json

namespace strconv

/-- `strconv.Itoa`: decimal rendering of an integer. -/
def Itoa (i : Int) : String := toString i

end strconv

namespace http

/-- Content of a response body: reading it fails, or its bytes are not valid
JSON (the decoder reports `err`), or they are the text of the JSON value `doc`. -/
inductive Body where
  | unreadable (err : GoError)
  | invalid (err : GoError)
  | valid (doc : Json)

/-- `*http.Response`, with the two things the client reads from it. -/
structure Response where
  StatusCode : Int
  Body : Body

end http

/-- Calls the client makes on its environment. -/
inductive Event where
  | Getenv (key : String)
  | Get (url : String)
  | ReadAll
deriving DecidableEq, Repr

/-- The `client` struct of the restaurant package. -/
structure client where
  baseURL : String
deriving DecidableEq, Repr

namespace client

/-- `client.getBaseURL`: the configured base URL, else the environment variable
`RESTAURANT_SERVICE_BASE_URL`, which is then stored in the receiver. Returns the
URL, the receiver afterwards and the calls made. -/
def getBaseURL (c : client) (getenv : String → String) : String × client × List Event :=
  if c.baseURL ≠ "" then (c.baseURL, c, [])
  else
    (getenv "RESTAURANT_SERVICE_BASE_URL",
      { baseURL := getenv "RESTAURANT_SERVICE_BASE_URL" },
      [Event.Getenv "RESTAURANT_SERVICE_BASE_URL"])

/-- The URL built by `fmt.Sprintf("%s/v1/restaurants?id=%s", base, strings.Join(idStrings, ","))`
where `idStrings` holds `strconv.Itoa(id)` for each id. -/
def requestURL (base : String) (ids : List Int) : String :=
  base ++ "/v1/restaurants?id=" ++ String.intercalate "," (ids.map strconv.Itoa)

/-- Observable result of one call of the client: the two returned values, the
receiver afterwards and the calls made on the environment, in order. -/
structure Run where
  restaurants : models.Restaurants
  err : Option GoError
  self : client
  events : List Event

/-- `client.GetRestaurantsByIDs` (lines 47-83). `getenv` is `os.Getenv` and
`httpGet` is `http.Get`, given by what they return. -/
def GetRestaurantsByIDs (c : client) (getenv : String → String)
    (httpGet : String → Except GoError http.Response) (ids : Slice Int) : Run :=
  if Slice.len ids = 0 then ⟨some [], none, c, []⟩
  else
    match getBaseURL c getenv with
    | (base, c', evs) =>
      let url := requestURL base (Slice.elems ids)
      match httpGet url with
      | Except.error err => ⟨none, some err, c', evs ++ [Event.Get url]⟩
      | Except.ok res =>
        if res.StatusCode ≠ 200 then
          ⟨none, some ⟨"error retrieving restaurants from RestaurantService"⟩, c',
            evs ++ [Event.Get url]⟩
        else
          match res.Body with
          | http.Body.unreadable err =>
              ⟨none, some err, c', evs ++ [Event.Get url, Event.ReadAll]⟩
          | http.Body.invalid err =>
              ⟨none, some err, c', evs ++ [Event.Get url, Event.ReadAll]⟩
          | http.Body.valid doc =>
              match json.Unmarshal doc with
              | Except.error err =>
                  ⟨none, some err, c', evs ++ [Event.Get url, Event.ReadAll]⟩
              | Except.ok parsedBody =>
                  ⟨parsedBody, none, c', evs ++ [Event.Get url, Event.ReadAll]⟩

/-- The client as the `restaurant.Client` collaborator of the order service. -/
def asLookup (c : client) (getenv : String → String)
    (httpGet : String → Except GoError http.Response) :
    List Int → models.Restaurants × Option GoError :=
  fun ids =>
    ((GetRestaurantsByIDs c getenv httpGet (some ids)).restaurants,
     (GetRestaurantsByIDs c getenv httpGet (some ids)).err)

end client

/-! ## Decimal text of integers (`strconv`, `strings`) -/

namespace strconv

/-- Value of a decimal digit, `none` for any other character. -/
def digitValue (c : Char) : Option Nat :=
  if '0' ≤ c ∧ c ≤ '9' then some (c.toNat - '0'.toNat) else none

/-- Reads a run of decimal digits, most significant first, continuing from the
value `acc` read so far; `none` at the first character that is not a digit. -/
def parseDigits : List Char → Nat → Option Nat
  | [], acc => some acc
  | c :: cs, acc =>
      match digitValue c with
      | none => none
      | some d => parseDigits cs (acc * 10 + d)

/-- The integer syntax of `strconv` in base 10: an optional sign `+` or `-`
followed by at least one decimal digit, and nothing else. -/
def parseDecimal : List Char → Option Int
  | [] => none
  | c :: cs =>
      if c = '-' then
        if cs = [] then none else (parseDigits cs 0).map (fun (n : Nat) => -(n : Int))
      else if c = '+' then
        if cs = [] then none else (parseDigits cs 0).map (fun (n : Nat) => (n : Int))
      else (parseDigits (c :: cs) 0).map (fun (n : Nat) => (n : Int))

/-- The `*strconv.NumError` of `Atoi`, for a text that needs no escaping. -/
def numError (s : String) (what : String) : GoError :=
  ⟨"strconv.Atoi: parsing " ++ String.singleton (Char.ofNat 34) ++ s
    ++ String.singleton (Char.ofNat 34) ++ ": " ++ what⟩

/-- `strconv.Atoi`: the text must have the decimal integer syntax and its value
must fit the 64-bit `int`. -/
def Atoi (s : String) : Except GoError Int :=
  match parseDecimal s.data with
  | none => Except.error (numError s "invalid syntax")
  | some n =>
      if -9223372036854775808 ≤ n ∧ n ≤ 9223372036854775807 then Except.ok n
      else Except.error (numError s "value out of range")

end strconv

namespace strings

/-- `strings.Split(s, ",")` on the characters of `s`: the pieces between the
commas, in order; a text without comma is its only piece. -/
def splitOnComma : List Char → List (List Char)
  | [] => [[]]
  | c :: cs =>
      if c = ',' then [] :: splitOnComma cs
      else
        match splitOnComma cs with
        | [] => [[c]]
        | p :: ps => (c :: p) :: ps

/-- The characters of `strings.Join(pieces, ",")`. -/
def joinComma : List (List Char) → List Char
  | [] => []
  | [p] => p
  | p :: q :: r => p ++ ',' :: joinComma (q :: r)

end strings

/-- The event is a request `http.Get`. -/
def Event.isGet : Event → Bool
  | Event.Get _ => true
  | _ => false

/-! ## Outbound serialization (`encoding/json` on `models.Order`) -/

namespace Json

/-- The keys of a JSON object, in order; no key for another kind of value. -/
def keys : Json → List String
  | Json.object members => members.map Prod.fst
  | _ => []

/-- The value of the first member with key `k` of a JSON object. -/
def member (k : String) : Json → Option Json
  | Json.object members => (members.find? (fun m => m.1 == k)).map Prod.snd
  | _ => none

end Json

namespace json

/-- `json.Marshal` of a `*models.Restaurant`: null for the nil pointer; the tag
`json:"-"` leaves `ID` out and `Name` is written under `name`. -/
def MarshalRestaurant : Option models.Restaurant → Json
  | none => Json.null
  | some r => Json.object [("name", Json.string r.Name)]

/-- `json.Marshal` of a `models.Order`, fields in declaration order: `UserID`
and `RestaurantID` carry the tag `json:"-"` and are left out. `rfc3339` is the
text `time.Time` writes for an instant. -/
def MarshalOrder (rfc3339 : Int → String) (o : models.Order) : Json :=
  Json.object
    [("id", Json.number o.ID),
     ("restaurant", MarshalRestaurant o.Restaurant),
     ("total", Json.number o.Total),
     ("currency_code", Json.string o.CurrencyCode),
     ("placed_at", Json.string (rfc3339 o.PlacedAt))]

/-- `json.Marshal` of a `models.Orders`: null for the nil slice, else the array
of its orders, a nil pointer being written as null. -/
def MarshalOrders (rfc3339 : Int → String) (h : Heap) : models.Orders → Json
  | none => Json.null
  | some ps =>
      Json.array (ps.map (fun p =>
        match p with
        | none => Json.null
        | some a => MarshalOrder rfc3339 (h a)))

end json

/-! ## Request handler (`handlers/order.go`) -/

namespace http

/-- `http.StatusOK`. -/
def StatusOK : Int := 200

/-- `http.StatusBadRequest`. -/
def StatusBadRequest : Int := 400

/-- `http.StatusInternalServerError`. -/
def StatusInternalServerError : Int := 500

end http

namespace handlers

/-- Calls of the handler on the gin context that write the response:
`c.Status(code)` sets the status and writes no body, `c.JSON(code, obj)` sets
the status and writes `obj` as the JSON body. -/
inductive Write where
  | Status (code : Int)
  | JSON (code : Int) (obj : models.Orders)
deriving DecidableEq, Repr

/-- Observable result of one call of the handler: the response calls, in order,
and the arguments of each `FindAllOrdersByUserID` call made on the service. -/
structure Run where
  writes : List Write
  serviceCalls : List Int
deriving DecidableEq, Repr

namespace Provider

/-- `Provider.FindOrdersForUser` (lines 17-33). `orderService` is the injected
`services.OrderService`, given by what it returns, and `param` is `c.Param`. -/
def FindOrdersForUser (orderService : Int → models.Orders × Option GoError)
    (param : String → String) : Run :=
  match strconv.Atoi (param "id") with
  | Except.error _ => ⟨[Write.Status http.StatusBadRequest], []⟩
  | Except.ok userID =>
    match orderService userID with
    | (_, some _) => ⟨[Write.Status http.StatusInternalServerError], [userID]⟩
    | (orders, none) => ⟨[Write.JSON http.StatusOK orders], [userID]⟩

end Provider

end handlers

/-! ## Order repository (`repositories/order_repository.go`) -/

namespace repositories

/-- A row of the `orders` table: the columns go-pg maps to the fields of
`models.Order`. The field `Restaurant` is tagged `sql:"-"` and has no column. -/
structure Row where
  id : Int
  user_id : Int
  restaurant_id : Int
  total : Int
  currency_code : String
  placed_at : Int
deriving DecidableEq, Repr

/-- The columns a query can compare on. -/
inductive Column where
  | id
  | user_id
  | restaurant_id
  | total
  | placed_at
deriving DecidableEq, Repr

/-- The value of a column in a row. -/
def Row.get (r : Row) : Column → Int
  | Column.id => r.id
  | Column.user_id => r.user_id
  | Column.restaurant_id => r.restaurant_id
  | Column.total => r.total
  | Column.placed_at => r.placed_at

/-- Direction of an `ORDER BY` clause. -/
inductive Direction where
  | ASC
  | DESC
deriving DecidableEq, Repr

/-- A query `SELECT ... WHERE whereColumn = whereValue ORDER BY orderColumn direction`. -/
structure Query where
  whereColumn : Column
  whereValue : Int
  orderColumn : Column
  direction : Direction
deriving DecidableEq, Repr

/-- The order an `ORDER BY` clause asks for between two rows. -/
def Query.before (q : Query) (x y : Row) : Prop :=
  match q.direction with
  | Direction.ASC => x.get q.orderColumn ≤ y.get q.orderColumn
  | Direction.DESC => y.get q.orderColumn ≤ x.get q.orderColumn

instance (q : Query) : DecidableRel q.before := fun x y => by
  unfold Query.before
  cases q.direction <;> exact inferInstance

/-- The rows a query selects from a table: those that satisfy the `WHERE`
clause, sorted as the `ORDER BY` clause asks. -/
def Query.select (q : Query) (table : List Row) : List Row :=
  List.insertionSort q.before (table.filter (fun r => r.get q.whereColumn = q.whereValue))

/-- The `models.Order` go-pg builds from a row; `Restaurant` stays nil. -/
def Row.toOrder (r : Row) : models.Order :=
  { ID := r.id, UserID := r.user_id, RestaurantID := r.restaurant_id, Restaurant := none,
    Total := r.total, CurrencyCode := r.currency_code, PlacedAt := r.placed_at }

/-- The zero value of `models.Order`. -/
def zeroOrder : models.Order :=
  { ID := 0, UserID := 0, RestaurantID := 0, Restaurant := none,
    Total := 0, CurrencyCode := "", PlacedAt := 0 }

namespace orderRepository

/-- `orderRepository.FindAllOrdersByUserID` (lines 39-43): the query
`Where("user_id = ?", userID).Order("placed_at DESC")` selected into `orders`,
which starts as the empty non-nil slice. `db` is the database, given by the content
of the `orders` table or by the error with which the query fails. Returns the
two results and the object store holding the orders built, the order of the
`i`-th selected row at address `i`. -/
def FindAllOrdersByUserID (db : Except GoError (List Row)) (userID : Int) :
    (models.Orders × Option GoError) × Heap :=
  match db with
  | Except.error err => ((some [], some err), fun _ => zeroOrder)
  | Except.ok table =>
      let rows := Query.select
        { whereColumn := Column.user_id, whereValue := userID,
          orderColumn := Column.placed_at, direction := Direction.DESC } table
      ((some ((List.range rows.length).map some), none),
        fun a => (rows.map Row.toOrder).getD a zeroOrder)

end orderRepository

end repositories

/-! ## Test fixtures of `services/order_service_test.go` -/

namespace fixture

/-- `order1` of the test: restaurant 8, total 1000, placed 72h ago. -/
def order1 : models.Order :=
  { ID := 0, UserID := 5, RestaurantID := 8, Restaurant := none,
    Total := 1000, CurrencyCode := "GBP", PlacedAt := -72 }

/-- `order2` of the test: restaurant 9, total 2500, placed 36h ago. -/
def order2 : models.Order :=
  { ID := 0, UserID := 5, RestaurantID := 9, Restaurant := none,
    Total := 2500, CurrencyCode := "GBP", PlacedAt := -36 }

/-- Object store with `order2` at address 0 and `order1` everywhere else. -/
def heap : Heap := fun a => if a = 0 then order2 else order1

/-- Mocked repository: `models.Orders{order2, order1}` and a nil error. -/
def repo : Int → models.Orders × Option GoError :=
  fun _ => (some [some 0, some 1], none)

/-- Restaurant 9 of the test. -/
def nandos : models.Restaurant := { ID := 9, Name := "Nandos" }

/-- Restaurant 8 of the test. -/
def kfc : models.Restaurant := { ID := 8, Name := "KFC" }


/-- Remote restaurant service answering every request with status 200 and a
body that is a JSON array of one object, with `id` 8 and `name` KFC. -/
def remote : String → Except GoError http.Response :=
  fun _ => Except.ok
    { StatusCode := 200,
      Body := http.Body.valid (Json.array
        [Json.object [("id", Json.number 8), ("name", Json.string "KFC")]]) }

/-- The three orders inserted by `repositories/order_repository_test.go`: two of
user 5, placed 72h and 36h ago, and one of user 7, placed 24h ago. -/
def table : List repositories.Row :=
  [{ id := 1, user_id := 5, restaurant_id := 8, total := 1000, currency_code := "GBP",
     placed_at := -72 },
   { id := 2, user_id := 5, restaurant_id := 9, total := 2500, currency_code := "GBP",
     placed_at := -36 },
   { id := 3, user_id := 7, restaurant_id := 8, total := 600, currency_code := "GBP",
     placed_at := -24 }]

end fixture

/-! ## Auxiliary facts about the loops -/

namespace Slice

theorem len_eq_length {α : Type} (s : Slice α) : len s = (elems s).length := by
  cases s <;> rfl

end Slice

namespace orderService

theorem collectRestaurantIDs_map (h : Heap) (addrs : List Nat) (acc : List Int) :
    collectRestaurantIDs h (addrs.map some) acc = some (acc ++ restaurantIDsOf h addrs) := by
  induction addrs generalizing acc with
  | nil => simp [collectRestaurantIDs, restaurantIDsOf]
  | cons a rest ih =>
    simp only [List.map_cons, collectRestaurantIDs, ih, restaurantIDsOf]
    simp

theorem indexByID_map (rs : List models.Restaurant) (m : RestaurantMap) :
    ∃ m', indexByID (rs.map some) m = some m' ∧
      ∀ k, (k ∈ rs.map (fun r => r.ID) → ∃ r ∈ rs, r.ID = k ∧ m' k = some r) ∧
           (k ∉ rs.map (fun r => r.ID) → m' k = m k) := by
  induction rs generalizing m with
  | nil => exact ⟨m, rfl, fun k => ⟨by simp, fun _ => rfl⟩⟩
  | cons r rest ih =>
    obtain ⟨m', hm', hk⟩ := ih (fun k => if k = r.ID then some r else m k)
    refine ⟨m', by simpa [indexByID] using hm', fun k => ⟨fun _ => ?_, fun hnot => ?_⟩⟩
    · by_cases hin : k ∈ rest.map (fun r => r.ID)
      · obtain ⟨r', hr', hid, hget⟩ := (hk k).1 hin
        exact ⟨r', List.mem_cons_of_mem _ hr', hid, hget⟩
      · have hout := (hk k).2 hin
        have hkr : k = r.ID := by
          simp only [List.map_cons, List.mem_cons] at *
          tauto
        refine ⟨r, List.mem_cons_self _ _, hkr.symm, ?_⟩
        rw [hout, if_pos hkr]
    · simp only [List.map_cons, List.mem_cons, not_or] at hnot
      rw [(hk k).2 hnot.2, if_neg hnot.1]

/-- Where the third loop stops and what it has written: the orders before the
stopping point are enriched in place, all other objects are untouched, and the
loop either reaches the end or stops at an order whose restaurant is missing. -/
theorem attachRestaurants_split (m : RestaurantMap) (addrs : List Nat) (h : Heap) :
    ∃ pre post, addrs = pre ++ post ∧
      (∀ b ∈ pre, ∃ r, m (h b).RestaurantID = some r ∧
        (attachRestaurants m (addrs.map some) h).2 b = enriched h b r) ∧
      (∀ b, b ∉ pre → (attachRestaurants m (addrs.map some) h).2 b = h b) ∧
      ((post = [] ∧ (attachRestaurants m (addrs.map some) h).1 = AttachResult.done) ∨
       (∃ a rest, post = a :: rest ∧ m (h a).RestaurantID = none ∧
          (attachRestaurants m (addrs.map some) h).1
            = AttachResult.missing (h a).RestaurantID)) := by
  induction addrs generalizing h with
  | nil =>
    exact ⟨[], [], rfl, by simp, fun _ _ => rfl, Or.inl ⟨rfl, rfl⟩⟩
  | cons a rest ih =>
    cases hma : m (h a).RestaurantID with
    | none =>
      refine ⟨[], a :: rest, rfl, by simp, fun b _ => ?_, Or.inr ⟨a, rest, rfl, hma, ?_⟩⟩
      · simp [attachRestaurants, hma]
      · simp [attachRestaurants, hma]
    | some r =>
      have hstep : attachRestaurants m ((a :: rest).map some) h
          = attachRestaurants m (rest.map some) (Function.update h a (enriched h a r)) := by
        simp [attachRestaurants, hma, enriched]
      have hrid : ∀ b, (Function.update h a (enriched h a r) b).RestaurantID
          = (h b).RestaurantID := by
        intro b
        by_cases hb : b = a
        · subst hb; simp [enriched]
        · simp [Function.update_noteq hb]
      obtain ⟨pre, post, hsplit, hpre, hout, hend⟩ := ih (Function.update h a (enriched h a r))
      refine ⟨a :: pre, post, by simp [hsplit], ?_, ?_, ?_⟩
      · intro b hb
        rw [hstep]
        by_cases hbp : b ∈ pre
        · obtain ⟨r', hr', hval⟩ := hpre b hbp
          rw [hrid] at hr'
          refine ⟨r', hr', ?_⟩
          rw [hval]
          by_cases hba : b = a
          · subst hba; simp [enriched]
          · simp [enriched, Function.update_noteq hba]
        · have hba : b = a := by
            simp only [List.mem_cons] at hb
            tauto
          subst hba
          refine ⟨r, hma, ?_⟩
          rw [hout b hbp]
          simp
      · intro b hb
        simp only [List.mem_cons, not_or] at hb
        rw [hstep, hout b hb.2, Function.update_noteq hb.1]
      · rw [hstep]
        rcases hend with hdone | ⟨a', rest', hpost, hmiss, hres⟩
        · exact Or.inl hdone
        · rw [hrid] at hmiss hres
          exact Or.inr ⟨a', rest', hpost, hmiss, hres⟩

/-- The run of the service once the repository has returned the orders at
`addrs` and the lookup client the restaurants `rs`, both without error. -/
theorem run_of_lookup
    (orderRepository : Int → models.Orders × Option GoError)
    (restaurantClient : List Int → models.Restaurants × Option GoError)
    (h : Heap) (userID : Int) (orders : models.Orders) (addrs : List Nat)
    (restaurants : models.Restaurants) (rs : List models.Restaurant)
    (hrepo : orderRepository userID = (orders, none))
    (hord : Slice.elems orders = addrs.map some) (hne : addrs ≠ [])
    (hcl : restaurantClient (restaurantIDsOf h addrs) = (restaurants, none))
    (hrs : Slice.elems restaurants = rs.map some) :
    ∃ m : RestaurantMap,
      (∀ k, (k ∈ rs.map (fun r => r.ID) → ∃ r ∈ rs, r.ID = k ∧ m k = some r) ∧
            (k ∉ rs.map (fun r => r.ID) → m k = none)) ∧
      (FindAllOrdersByUserID orderRepository restaurantClient h userID).outcome
        = outcomeOf orders (attachRestaurants m (addrs.map some) h).1 ∧
      (FindAllOrdersByUserID orderRepository restaurantClient h userID).heap
        = (attachRestaurants m (addrs.map some) h).2 ∧
      (FindAllOrdersByUserID orderRepository restaurantClient h userID).lookups
        = [restaurantIDsOf h addrs] := by
  obtain ⟨m, hm, hspec⟩ := indexByID_map rs (fun _ => none)
  have hlen : Slice.len orders ≠ 0 := by
    rw [Slice.len_eq_length, hord]
    simpa using hne
  refine ⟨m, hspec, ?_⟩
  unfold FindAllOrdersByUserID
  rw [hrepo]
  simp only [hlen, if_false, hord, collectRestaurantIDs_map, List.nil_append, hcl, hrs, hm]
  generalize attachRestaurants m (addrs.map some) h = p
  obtain ⟨res, h'⟩ := p
  cases res <;> simp [outcomeOf]

/-- The third loop writes nothing but the `Restaurant` field. -/
theorem attachRestaurants_frame (m : RestaurantMap) (ps : List Ptr) (h : Heap) (b : Nat) :
    (attachRestaurants m ps h).2 b = h b ∨
      ∃ r, (attachRestaurants m ps h).2 b = { h b with Restaurant := some r } := by
  induction ps generalizing h with
  | nil => exact Or.inl rfl
  | cons p rest ih =>
    cases p with
    | none => exact Or.inl rfl
    | some a =>
      cases hma : m (h a).RestaurantID with
      | none => left; simp [attachRestaurants, hma]
      | some r =>
        have hstep : attachRestaurants m (some a :: rest) h
            = attachRestaurants m rest (Function.update h a { h a with Restaurant := some r }) := by
          simp [attachRestaurants, hma]
        rw [hstep]
        by_cases hb : b = a
        · subst hb
          right
          rcases ih (Function.update h b { h b with Restaurant := some r }) with h1 | ⟨r', h1⟩
          · exact ⟨r, by rw [h1]; simp⟩
          · exact ⟨r', by rw [h1]; simp⟩
        · rcases ih (Function.update h a { h a with Restaurant := some r }) with h1 | ⟨r', h1⟩
          · left; rw [h1, Function.update_noteq hb]
          · right; exact ⟨r', by rw [h1, Function.update_noteq hb]⟩

/-- Every run leaves each order object as it was up to its `Restaurant` field. -/
theorem run_heap_frame
    (orderRepository : Int → models.Orders × Option GoError)
    (restaurantClient : List Int → models.Restaurants × Option GoError)
    (h : Heap) (userID : Int) (b : Nat) :
    (FindAllOrdersByUserID orderRepository restaurantClient h userID).heap b = h b ∨
      ∃ r, (FindAllOrdersByUserID orderRepository restaurantClient h userID).heap b
        = { h b with Restaurant := some r } := by
  unfold FindAllOrdersByUserID
  repeat' split
  all_goals first
    | exact Or.inl rfl
    | (rename_i heq
       have hsnd := congrArg Prod.snd heq
       simp only at hsnd
       subst hsnd
       exact attachRestaurants_frame _ _ _ _)

/-- A run that returns without error returns the slice the repository gave. -/
theorem run_ok_result
    (orderRepository : Int → models.Orders × Option GoError)
    (restaurantClient : List Int → models.Restaurants × Option GoError)
    (h : Heap) (userID : Int) (result : models.Orders)
    (hok : (FindAllOrdersByUserID orderRepository restaurantClient h userID).outcome
      = Outcome.ret result none) :
    orderRepository userID = (result, none) := by
  unfold FindAllOrdersByUserID at hok
  repeat' split at hok
  all_goals simp_all

/-- The run of the service when the repository returns no order and no error. -/
theorem run_of_empty
    (orderRepository : Int → models.Orders × Option GoError)
    (restaurantClient : List Int → models.Restaurants × Option GoError)
    (h : Heap) (userID : Int) (orders : models.Orders)
    (hrepo : orderRepository userID = (orders, none)) (hzero : Slice.len orders = 0) :
    (FindAllOrdersByUserID orderRepository restaurantClient h userID).outcome
        = Outcome.ret orders none ∧
      (FindAllOrdersByUserID orderRepository restaurantClient h userID).heap = h ∧
      (FindAllOrdersByUserID orderRepository restaurantClient h userID).lookups = [] := by
  unfold FindAllOrdersByUserID
  rw [hrepo]
  simp [hzero]

/-- The run of the service when the repository returns an error. -/
theorem run_of_repository_error
    (orderRepository : Int → models.Orders × Option GoError)
    (restaurantClient : List Int → models.Restaurants × Option GoError)
    (h : Heap) (userID : Int) (e : GoError)
    (hrepo : (orderRepository userID).2 = some e) :
    (FindAllOrdersByUserID orderRepository restaurantClient h userID).outcome
        = Outcome.ret none (some e) ∧
      (FindAllOrdersByUserID orderRepository restaurantClient h userID).lookups = [] := by
  unfold FindAllOrdersByUserID
  rcases hp : orderRepository userID with ⟨orders, err⟩
  rw [hp] at hrepo
  simp only at hrepo
  subst hrepo
  simp

/-- The run of the service up to the lookup, for orders at `addrs`. -/
theorem run_until_lookup
    (orderRepository : Int → models.Orders × Option GoError)
    (restaurantClient : List Int → models.Restaurants × Option GoError)
    (h : Heap) (userID : Int) (orders : models.Orders) (addrs : List Nat)
    (hrepo : orderRepository userID = (orders, none))
    (hord : Slice.elems orders = addrs.map some) (hne : addrs ≠ []) :
    (FindAllOrdersByUserID orderRepository restaurantClient h userID).lookups
        = [restaurantIDsOf h addrs] ∧
      ∀ e, (restaurantClient (restaurantIDsOf h addrs)).2 = some e →
        (FindAllOrdersByUserID orderRepository restaurantClient h userID).outcome
          = Outcome.ret none (some e) := by
  have hlen : Slice.len orders ≠ 0 := by
    rw [Slice.len_eq_length, hord]
    simpa using hne
  unfold FindAllOrdersByUserID
  rw [hrepo]
  simp only [hlen, if_false, hord, collectRestaurantIDs_map, List.nil_append]
  rcases hp : restaurantClient (restaurantIDsOf h addrs) with ⟨restaurants, err⟩
  cases err with
  | some e0 => simp
  | none =>
    simp only
    repeat' split
    all_goals simp

end orderService

/-! ## Order service: the claims

In the statements below `addrs` lists the addresses of the orders the
repository returns and `rs` the restaurants the lookup client returns: the
entries of both sequences are objects, none is a nil pointer. A nil entry makes
the service panic, see `FindAllOrdersByUserID_nil_entry`. -/

namespace orderService

/-- A nil pointer among the restaurants returned by the lookup client, or among
the orders returned by the repository, makes the service panic. -/
theorem FindAllOrdersByUserID_nil_entry :
    (FindAllOrdersByUserID fixture.repo (fun _ => (some [none], none)) fixture.heap 5).outcome
        = Outcome.panic ∧
      (FindAllOrdersByUserID (fun _ => (some [none], none)) (fun _ => (some [], none))
        fixture.heap 5).outcome = Outcome.panic := by
  decide

/-- C1: when the repository returns a non-empty sequence of orders without error
and the lookup client returns, without error, restaurants that lack the
identifier referenced by at least one of those orders, the service returns the
nil sequence together with the error `restaurant with ID n not found`, where `n`
is referenced by an order and absent from the lookup result. -/
theorem FindAllOrdersByUserID_missing_restaurant
    (orderRepository : Int → models.Orders × Option GoError)
    (restaurantClient : List Int → models.Restaurants × Option GoError)
    (h : Heap) (userID : Int) (orders : models.Orders) (addrs : List Nat)
    (restaurants : models.Restaurants) (rs : List models.Restaurant)
    (hrepo : orderRepository userID = (orders, none))
    (hord : Slice.elems orders = addrs.map some) (hne : addrs ≠ [])
    (hcl : restaurantClient (restaurantIDsOf h addrs) = (restaurants, none))
    (hrs : Slice.elems restaurants = rs.map some)
    (hmiss : ∃ a ∈ addrs, (h a).RestaurantID ∉ rs.map (fun r => r.ID)) :
    ∃ n : Int, n ∈ restaurantIDsOf h addrs ∧ n ∉ rs.map (fun r => r.ID) ∧
      (FindAllOrdersByUserID orderRepository restaurantClient h userID).outcome
        = Outcome.ret none (some ⟨"restaurant with ID " ++ toString n ++ " not found"⟩) := by
  obtain ⟨m, hspec, hout, -, -⟩ := run_of_lookup orderRepository restaurantClient h userID
    orders addrs restaurants rs hrepo hord hne hcl hrs
  obtain ⟨pre, post, hsplit, hpre, -, hend⟩ := attachRestaurants_split m addrs h
  rcases hend with ⟨hpost, -⟩ | ⟨a, rest, hpost, hnone, hres⟩
  · exfalso
    obtain ⟨a, ha, hnot⟩ := hmiss
    have hap : a ∈ pre := by simpa [hsplit, hpost] using ha
    obtain ⟨r, hr, -⟩ := hpre a hap
    rw [(hspec _).2 hnot] at hr
    exact Option.noConfusion hr
  · refine ⟨(h a).RestaurantID, ?_, ?_, ?_⟩
    · have : a ∈ addrs := by simp [hsplit, hpost]
      exact List.mem_map_of_mem _ this
    · intro hin
      obtain ⟨r, -, -, hr⟩ := (hspec _).1 hin
      rw [hnone] at hr
      exact Option.noConfusion hr
    · rw [hout, hres]
      rfl

/-- Witness of C1: the orders of the test (restaurants 9 then 8) with a lookup
result that holds restaurant 8 only. -/
theorem FindAllOrdersByUserID_missing_restaurant_witness :
    ∃ n : Int, n ∈ restaurantIDsOf fixture.heap [0, 1] ∧
      n ∉ [fixture.kfc].map (fun r => r.ID) ∧
      (FindAllOrdersByUserID fixture.repo (fun _ => (some [some fixture.kfc], none))
          fixture.heap 5).outcome
        = Outcome.ret none (some ⟨"restaurant with ID " ++ toString n ++ " not found"⟩) :=
  FindAllOrdersByUserID_missing_restaurant fixture.repo
    (fun _ => (some [some fixture.kfc], none)) fixture.heap 5 (some [some 0, some 1]) [0, 1]
    (some [some fixture.kfc]) [fixture.kfc] rfl rfl (by decide) rfl rfl
    ⟨0, by decide, by decide⟩

/-- C2: when the repository returns orders without error and the lookup client
returns, without error, a restaurant for every identifier those orders
reference, the service returns the orders without error and each of them has an
attached restaurant, taken from the lookup result, whose `ID` is the order's
`RestaurantID`. -/
theorem FindAllOrdersByUserID_attaches_matching
    (orderRepository : Int → models.Orders × Option GoError)
    (restaurantClient : List Int → models.Restaurants × Option GoError)
    (h : Heap) (userID : Int) (orders : models.Orders) (addrs : List Nat)
    (restaurants : models.Restaurants) (rs : List models.Restaurant)
    (hrepo : orderRepository userID = (orders, none))
    (hord : Slice.elems orders = addrs.map some)
    (hcl : restaurantClient (restaurantIDsOf h addrs) = (restaurants, none))
    (hrs : Slice.elems restaurants = rs.map some)
    (hall : ∀ a ∈ addrs, (h a).RestaurantID ∈ rs.map (fun r => r.ID)) :
    (FindAllOrdersByUserID orderRepository restaurantClient h userID).outcome
        = Outcome.ret orders none ∧
      ∀ a ∈ addrs, ∃ r ∈ rs,
        ((FindAllOrdersByUserID orderRepository restaurantClient h userID).heap a).Restaurant
            = some r ∧
          r.ID = ((FindAllOrdersByUserID orderRepository restaurantClient h userID).heap
            a).RestaurantID := by
  by_cases hne : addrs = []
  · subst hne
    have hzero : Slice.len orders = 0 := by
      rw [Slice.len_eq_length, hord]
      rfl
    exact ⟨(run_of_empty orderRepository restaurantClient h userID orders hrepo hzero).1,
      by simp⟩
  · obtain ⟨m, hspec, hout, hheap, -⟩ := run_of_lookup orderRepository restaurantClient h
      userID orders addrs restaurants rs hrepo hord hne hcl hrs
    obtain ⟨pre, post, hsplit, hpre, -, hend⟩ := attachRestaurants_split m addrs h
    rcases hend with ⟨hpost, hres⟩ | ⟨a, rest, hpost, hnone, -⟩
    · refine ⟨by rw [hout, hres]; rfl, fun a ha => ?_⟩
      have hap : a ∈ pre := by simpa [hsplit, hpost] using ha
      obtain ⟨r, hr, hval⟩ := hpre a hap
      obtain ⟨r', hr', hid, hget⟩ := (hspec _).1 (hall a ha)
      have hrr : r' = r := by
        rw [hr] at hget
        exact (Option.some.inj hget).symm
      subst hrr
      refine ⟨r', hr', ?_, ?_⟩
      · rw [hheap, hval]
        rfl
      · rw [hheap, hval]
        exact hid
    · exfalso
      have ha : a ∈ addrs := by simp [hsplit, hpost]
      obtain ⟨r, -, -, hr⟩ := (hspec _).1 (hall a ha)
      rw [hnone] at hr
      exact Option.noConfusion hr

/-- Witness of C2: the orders of the test with both restaurants returned. -/
theorem FindAllOrdersByUserID_attaches_matching_witness :
    (FindAllOrdersByUserID fixture.repo
        (fun _ => (some [some fixture.nandos, some fixture.kfc], none)) fixture.heap 5).outcome
        = Outcome.ret (some [some 0, some 1]) none ∧
      ∀ a ∈ [0, 1], ∃ r ∈ [fixture.nandos, fixture.kfc],
        ((FindAllOrdersByUserID fixture.repo
            (fun _ => (some [some fixture.nandos, some fixture.kfc], none))
            fixture.heap 5).heap a).Restaurant = some r ∧
          r.ID = ((FindAllOrdersByUserID fixture.repo
            (fun _ => (some [some fixture.nandos, some fixture.kfc], none))
            fixture.heap 5).heap a).RestaurantID :=
  FindAllOrdersByUserID_attaches_matching fixture.repo
    (fun _ => (some [some fixture.nandos, some fixture.kfc], none)) fixture.heap 5
    (some [some 0, some 1]) [0, 1] (some [some fixture.nandos, some fixture.kfc])
    [fixture.nandos, fixture.kfc] rfl rfl rfl rfl (by decide)

/-- C3: when the repository returns a non-empty sequence and the service
returns without error, the returned sequence is the one of the repository: same
length, the same order at every index, and, the placement instants being left
as they are, sorted by `PlacedAt` descending whenever the repository output is. -/
theorem FindAllOrdersByUserID_keeps_sequence
    (orderRepository : Int → models.Orders × Option GoError)
    (restaurantClient : List Int → models.Restaurants × Option GoError)
    (h : Heap) (userID : Int) (orders result : models.Orders)
    (hrepo : orderRepository userID = (orders, none))
    (hne : Slice.len orders ≠ 0)
    (hok : (FindAllOrdersByUserID orderRepository restaurantClient h userID).outcome
      = Outcome.ret result none) :
    Slice.len result = Slice.len orders ∧ Slice.len result ≠ 0 ∧
      (∀ i : Nat, (Slice.elems result)[i]? = (Slice.elems orders)[i]?) ∧
      (DescendingByPlacedAt h orders →
        DescendingByPlacedAt
          (FindAllOrdersByUserID orderRepository restaurantClient h userID).heap result) := by
  have hsame := run_ok_result orderRepository restaurantClient h userID result hok
  rw [hrepo] at hsame
  have hres : result = orders := (congrArg Prod.fst hsame).symm
  subst hres
  refine ⟨rfl, hne, fun _ => rfl, fun hdesc => ?_⟩
  have hplaced : ∀ b,
      ((FindAllOrdersByUserID orderRepository restaurantClient h userID).heap b).PlacedAt
        = (h b).PlacedAt := by
    intro b
    rcases run_heap_frame orderRepository restaurantClient h userID b with hb | ⟨r, hb⟩
    · rw [hb]
    · rw [hb]
  unfold DescendingByPlacedAt placedAts at *
  simpa only [hplaced] using hdesc

/-- Witness of C3: the orders of the test, placed 36h ago then 72h ago, with
both restaurants returned. -/
theorem FindAllOrdersByUserID_keeps_sequence_witness :
    Slice.len (some [some 0, some 1] : models.Orders) = Slice.len (some [some 0, some 1]) ∧
      Slice.len (some [some 0, some 1] : models.Orders) ≠ 0 ∧
      (∀ i : Nat, (Slice.elems (some [some 0, some 1] : models.Orders))[i]?
        = (Slice.elems (some [some 0, some 1] : models.Orders))[i]?) ∧
      (DescendingByPlacedAt fixture.heap (some [some 0, some 1]) →
        DescendingByPlacedAt
          (FindAllOrdersByUserID fixture.repo
            (fun _ => (some [some fixture.nandos, some fixture.kfc], none))
            fixture.heap 5).heap (some [some 0, some 1])) :=
  FindAllOrdersByUserID_keeps_sequence fixture.repo
    (fun _ => (some [some fixture.nandos, some fixture.kfc], none)) fixture.heap 5
    (some [some 0, some 1]) (some [some 0, some 1]) rfl (by decide) (by decide)

/-- The repository output of the test is sorted by `PlacedAt` descending, and
so is the sequence the service returns for it. -/
theorem fixture_descending :
    DescendingByPlacedAt fixture.heap (some [some 0, some 1]) ∧
      DescendingByPlacedAt
        (FindAllOrdersByUserID fixture.repo
          (fun _ => (some [some fixture.nandos, some fixture.kfc], none))
          fixture.heap 5).heap (some [some 0, some 1]) := by
  unfold DescendingByPlacedAt placedAts
  decide

/-- C4: when the repository returns zero orders and no error, the service
returns a sequence of length 0 with no error and makes no call of
`GetRestaurantsByIDs`. -/
theorem FindAllOrdersByUserID_no_orders
    (orderRepository : Int → models.Orders × Option GoError)
    (restaurantClient : List Int → models.Restaurants × Option GoError)
    (h : Heap) (userID : Int) (orders : models.Orders)
    (hrepo : orderRepository userID = (orders, none)) (hzero : Slice.len orders = 0) :
    ∃ result : models.Orders,
      (FindAllOrdersByUserID orderRepository restaurantClient h userID).outcome
          = Outcome.ret result none ∧
        Slice.len result = 0 ∧
        (FindAllOrdersByUserID orderRepository restaurantClient h userID).lookups = [] := by
  obtain ⟨hout, -, hlook⟩ :=
    run_of_empty orderRepository restaurantClient h userID orders hrepo hzero
  exact ⟨orders, hout, hzero, hlook⟩

/-- Witness of C4: the mocked repository of the test returns the nil slice and
the nil error. -/
theorem FindAllOrdersByUserID_no_orders_witness :
    ∃ result : models.Orders,
      (FindAllOrdersByUserID (fun _ => (none, none)) (fun _ => (none, some ⟨"unused"⟩))
          fixture.heap 5).outcome = Outcome.ret result none ∧
        Slice.len result = 0 ∧
        (FindAllOrdersByUserID (fun _ => (none, none)) (fun _ => (none, some ⟨"unused"⟩))
          fixture.heap 5).lookups = [] :=
  FindAllOrdersByUserID_no_orders (fun _ => (none, none)) (fun _ => (none, some ⟨"unused"⟩))
    fixture.heap 5 none rfl rfl

/-- C5: when the repository returns an error `e`, or returns a non-empty
sequence of orders without error and the lookup client returns an error `e`,
the service returns the nil sequence together with exactly `e`; when the error
is the one of the repository the lookup client is not called. -/
theorem FindAllOrdersByUserID_propagates_error
    (orderRepository : Int → models.Orders × Option GoError)
    (restaurantClient : List Int → models.Restaurants × Option GoError)
    (h : Heap) (userID : Int) (e : GoError)
    (hfail : (orderRepository userID).2 = some e ∨
      ∃ orders addrs, orderRepository userID = (orders, none) ∧
        Slice.elems orders = addrs.map some ∧ addrs ≠ [] ∧
        (restaurantClient (restaurantIDsOf h addrs)).2 = some e) :
    (FindAllOrdersByUserID orderRepository restaurantClient h userID).outcome
        = Outcome.ret none (some e) ∧
      ((orderRepository userID).2 = some e →
        (FindAllOrdersByUserID orderRepository restaurantClient h userID).lookups = []) := by
  refine ⟨?_, fun hrepo =>
    (run_of_repository_error orderRepository restaurantClient h userID e hrepo).2⟩
  rcases hfail with hrepo | ⟨orders, addrs, hrepo, hord, hne, hcl⟩
  · exact (run_of_repository_error orderRepository restaurantClient h userID e hrepo).1
  · exact (run_until_lookup orderRepository restaurantClient h userID orders addrs
      hrepo hord hne).2 e hcl

/-- Witness of C5, one instance for each of the two cases: a repository that
fails, and the orders of the test with a lookup client that fails. -/
theorem FindAllOrdersByUserID_propagates_error_witness :
    ((FindAllOrdersByUserID (fun _ => (some [], some ⟨"storage"⟩)) (fun _ => (some [], none))
          fixture.heap 5).outcome = Outcome.ret none (some ⟨"storage"⟩) ∧
      (((fun _ => (some [], some ⟨"storage"⟩) : Int → models.Orders × Option GoError) 5).2
          = some ⟨"storage"⟩ →
        (FindAllOrdersByUserID (fun _ => (some [], some ⟨"storage"⟩)) (fun _ => (some [], none))
          fixture.heap 5).lookups = [])) ∧
    ((FindAllOrdersByUserID fixture.repo (fun _ => (some [], some ⟨"remote"⟩))
          fixture.heap 5).outcome = Outcome.ret none (some ⟨"remote"⟩) ∧
      ((fixture.repo 5).2 = some ⟨"remote"⟩ →
        (FindAllOrdersByUserID fixture.repo (fun _ => (some [], some ⟨"remote"⟩))
          fixture.heap 5).lookups = [])) :=
  ⟨FindAllOrdersByUserID_propagates_error (fun _ => (some [], some ⟨"storage"⟩))
      (fun _ => (some [], none)) fixture.heap 5 ⟨"storage"⟩ (Or.inl rfl),
   FindAllOrdersByUserID_propagates_error fixture.repo (fun _ => (some [], some ⟨"remote"⟩))
      fixture.heap 5 ⟨"remote"⟩
      (Or.inr ⟨some [some 0, some 1], [0, 1], rfl, rfl, by decide, rfl⟩)⟩

/-- C6, as stated, fails: with the orders of the test (restaurants 9 then 8)
and a lookup result holding restaurant 9 only, the service fails with
`restaurant with ID 8 not found`, yet the first order object, which had no
attached restaurant before the call, has restaurant 9 attached after it. -/
theorem FindAllOrdersByUserID_enrichment_not_undone :
    (FindAllOrdersByUserID fixture.repo (fun _ => (some [some fixture.nandos], none))
        fixture.heap 5).outcome
        = Outcome.ret none (some ⟨"restaurant with ID 8 not found"⟩) ∧
      (fixture.heap 0).Restaurant = none ∧
      ((FindAllOrdersByUserID fixture.repo (fun _ => (some [some fixture.nandos], none))
        fixture.heap 5).heap 0).Restaurant = some fixture.nandos ∧
      ¬ (∀ a ∈ [0, 1],
        ((FindAllOrdersByUserID fixture.repo (fun _ => (some [some fixture.nandos], none))
          fixture.heap 5).heap a).Restaurant = (fixture.heap a).Restaurant) := by
  decide

/-- C6 amended: when the repository and the lookup client return without error
and the service fails, it returns the nil sequence and the error names the
restaurant of an order `a` of the sequence that is absent from the lookup
result; every order object that does not occur before `a` in the sequence, `a`
included, is exactly as it was before the call, and every order object that
occurs before `a` differs from its former value only by its attached
restaurant, which is now the looked-up restaurant of its `RestaurantID`. -/
theorem FindAllOrdersByUserID_failure_effect
    (orderRepository : Int → models.Orders × Option GoError)
    (restaurantClient : List Int → models.Restaurants × Option GoError)
    (h : Heap) (userID : Int) (orders : models.Orders) (addrs : List Nat)
    (restaurants : models.Restaurants) (rs : List models.Restaurant)
    (result : models.Orders) (e : GoError)
    (hrepo : orderRepository userID = (orders, none))
    (hord : Slice.elems orders = addrs.map some)
    (hcl : restaurantClient (restaurantIDsOf h addrs) = (restaurants, none))
    (hrs : Slice.elems restaurants = rs.map some)
    (herr : (FindAllOrdersByUserID orderRepository restaurantClient h userID).outcome
      = Outcome.ret result (some e)) :
    result = none ∧
      ∃ pre a post, addrs = pre ++ a :: post ∧
        e = notFoundError (h a).RestaurantID ∧
        (h a).RestaurantID ∉ rs.map (fun r => r.ID) ∧
        (∀ b, b ∉ pre →
          (FindAllOrdersByUserID orderRepository restaurantClient h userID).heap b = h b) ∧
        (∀ b ∈ pre, ∃ r ∈ rs, r.ID = (h b).RestaurantID ∧
          (FindAllOrdersByUserID orderRepository restaurantClient h userID).heap b
            = { h b with Restaurant := some r }) := by
  by_cases hne : addrs = []
  · exfalso
    subst hne
    have hzero : Slice.len orders = 0 := by
      rw [Slice.len_eq_length, hord]
      rfl
    rw [(run_of_empty orderRepository restaurantClient h userID orders hrepo hzero).1] at herr
    simp at herr
  · obtain ⟨m, hspec, hout, hheap, -⟩ := run_of_lookup orderRepository restaurantClient h
      userID orders addrs restaurants rs hrepo hord hne hcl hrs
    obtain ⟨pre, post, hsplit, hpre, hrest, hend⟩ := attachRestaurants_split m addrs h
    rcases hend with ⟨-, hres⟩ | ⟨a, rest, hpost, hnone, hres⟩
    · exfalso
      rw [hout, hres] at herr
      simp [outcomeOf] at herr
    · rw [hout, hres] at herr
      simp only [outcomeOf, Outcome.ret.injEq, Option.some.injEq] at herr
      refine ⟨herr.1.symm, pre, a, rest, by rw [hsplit, hpost], herr.2.symm, ?_, ?_, ?_⟩
      · intro hin
        obtain ⟨r, -, -, hr⟩ := (hspec _).1 hin
        rw [hnone] at hr
        exact Option.noConfusion hr
      · intro b hb
        rw [hheap]
        exact hrest b hb
      · intro b hb
        obtain ⟨r, hr, hval⟩ := hpre b hb
        have hin : (h b).RestaurantID ∈ rs.map (fun r => r.ID) := by
          by_contra hnot
          rw [(hspec _).2 hnot] at hr
          exact Option.noConfusion hr
        obtain ⟨r', hr', hid, hget⟩ := (hspec _).1 hin
        have hrr : r' = r := by
          rw [hr] at hget
          exact (Option.some.inj hget).symm
        subst hrr
        exact ⟨r', hr', hid, by rw [hheap, hval]; rfl⟩

/-- Witness of C6 amended: the input of the counterexample. -/
theorem FindAllOrdersByUserID_failure_effect_witness :
    (none : models.Orders) = none ∧
      ∃ pre a post, [0, 1] = pre ++ a :: post ∧
        (⟨"restaurant with ID 8 not found"⟩ : GoError)
          = notFoundError (fixture.heap a).RestaurantID ∧
        (fixture.heap a).RestaurantID ∉ [fixture.nandos].map (fun r => r.ID) ∧
        (∀ b, b ∉ pre →
          (FindAllOrdersByUserID fixture.repo (fun _ => (some [some fixture.nandos], none))
            fixture.heap 5).heap b = fixture.heap b) ∧
        (∀ b ∈ pre, ∃ r ∈ [fixture.nandos], r.ID = (fixture.heap b).RestaurantID ∧
          (FindAllOrdersByUserID fixture.repo (fun _ => (some [some fixture.nandos], none))
            fixture.heap 5).heap b = { fixture.heap b with Restaurant := some r }) :=
  FindAllOrdersByUserID_failure_effect fixture.repo
    (fun _ => (some [some fixture.nandos], none)) fixture.heap 5 (some [some 0, some 1]) [0, 1]
    (some [some fixture.nandos]) [fixture.nandos] none ⟨"restaurant with ID 8 not found"⟩
    rfl rfl rfl rfl (by decide)

/-- C7: for a non-empty sequence of orders returned by the repository, the
service calls `GetRestaurantsByIDs` once, with the `RestaurantID` values of the
orders in the order of the sequence, one entry for each order. -/
theorem FindAllOrdersByUserID_lookup_argument
    (orderRepository : Int → models.Orders × Option GoError)
    (restaurantClient : List Int → models.Restaurants × Option GoError)
    (h : Heap) (userID : Int) (orders : models.Orders) (addrs : List Nat)
    (hrepo : orderRepository userID = (orders, none))
    (hord : Slice.elems orders = addrs.map some) (hne : addrs ≠ []) :
    (FindAllOrdersByUserID orderRepository restaurantClient h userID).lookups
        = [addrs.map (fun a => (h a).RestaurantID)] ∧
      (addrs.map (fun a => (h a).RestaurantID)).length = Slice.len orders := by
  refine ⟨(run_until_lookup orderRepository restaurantClient h userID orders addrs
    hrepo hord hne).1, ?_⟩
  rw [Slice.len_eq_length, hord]
  simp

/-- Witness of C7: for the orders of the test, restaurants 9 then 8, the
argument is `[9, 8]`. -/
theorem FindAllOrdersByUserID_lookup_argument_witness :
    (FindAllOrdersByUserID fixture.repo (fun _ => (some [], none)) fixture.heap 5).lookups
        = [[9, 8]] ∧
      ([9, 8] : List Int).length = Slice.len (some [some 0, some 1] : models.Orders) :=
  FindAllOrdersByUserID_lookup_argument fixture.repo (fun _ => (some [], none)) fixture.heap 5
    (some [some 0, some 1]) [0, 1] rfl rfl (by decide)

end orderService

/-! ## Restaurant lookup client: the claims -/

namespace json

/-- Decoding an array of `id`/`name` objects gives one restaurant for each
object, in order, with the name of the object and the identifier left at 0. -/
theorem decodeElements_restaurantObjects (objs : List (Int × String)) :
    decodeElements (objs.map restaurantObject)
      = Except.ok (objs.map (fun p => some ({ ID := 0, Name := p.2 } : models.Restaurant))) := by
  have hid : matchesName "id" = false := by decide
  have hname : matchesName "name" = true := by decide
  induction objs with
  | nil => rfl
  | cons p rest ih =>
    simp [decodeElements, decodeElement, decodeMembers, restaurantObject, hid, hname, ih]

end json

namespace client

/-- What the client returns for a 200 response whose body is an array of
`id`/`name` objects: no error and one restaurant for each object, in body order,
carrying the name of the object; the identifier is 0 whatever `id` holds. -/
theorem GetRestaurantsByIDs_of_objects (c : client) (getenv : String → String)
    (httpGet : String → Except GoError http.Response) (ids : Slice Int)
    (objs : List (Int × String))
    (hne : Slice.len ids ≠ 0)
    (hget : httpGet (requestURL (getBaseURL c getenv).1 (Slice.elems ids))
      = Except.ok ⟨200, http.Body.valid (Json.array (objs.map json.restaurantObject))⟩) :
    (GetRestaurantsByIDs c getenv httpGet ids).err = none ∧
      (GetRestaurantsByIDs c getenv httpGet ids).restaurants
        = some (objs.map (fun p => some ({ ID := 0, Name := p.2 } : models.Restaurant))) := by
  unfold GetRestaurantsByIDs
  simp [hne, hget, json.Unmarshal, json.decodeElements_restaurantObjects]

/-- C8, evaluated where it fails: for the id list `[8]` and the 200 response
whose body is a JSON array of one object, with `id` 8 and `name` KFC, the
client returns no error and one restaurant named `KFC` whose identifier is 0,
not 8; the order service using this client for an order of restaurant 8 fails
with `restaurant with ID 8 not found`. -/
theorem GetRestaurantsByIDs_identifier_not_decoded :
    (GetRestaurantsByIDs ⟨"http://r"⟩ (fun _ => "") fixture.remote (some [8])).err = none ∧
      (GetRestaurantsByIDs ⟨"http://r"⟩ (fun _ => "") fixture.remote (some [8])).restaurants
        = some [some { ID := 0, Name := "KFC" }] ∧
      (GetRestaurantsByIDs ⟨"http://r"⟩ (fun _ => "") fixture.remote (some [8])).restaurants
        ≠ some [some { ID := 8, Name := "KFC" }] ∧
      (orderService.FindAllOrdersByUserID (fun _ => (some [some 1], none))
          (asLookup ⟨"http://r"⟩ (fun _ => "") fixture.remote) fixture.heap 5).outcome
        = Outcome.ret none (some ⟨"restaurant with ID 8 not found"⟩) := by
  decide

/-- C9: for an empty identifier collection, nil or of length zero, the client
returns the empty non-nil sequence and no error, makes no call at all (no
request, no read of the environment) and leaves its base URL as it is. -/
theorem GetRestaurantsByIDs_empty (c : client) (getenv : String → String)
    (httpGet : String → Except GoError http.Response) (ids : Slice Int)
    (hempty : Slice.len ids = 0) :
    (GetRestaurantsByIDs c getenv httpGet ids).restaurants = some [] ∧
      (GetRestaurantsByIDs c getenv httpGet ids).err = none ∧
      (GetRestaurantsByIDs c getenv httpGet ids).events = [] ∧
      (GetRestaurantsByIDs c getenv httpGet ids).self = c := by
  unfold GetRestaurantsByIDs
  simp [hempty]

/-- Witness of C9: the nil slice and the empty non-nil slice, for a client
with no base URL configured. -/
theorem GetRestaurantsByIDs_empty_witness :
    ((GetRestaurantsByIDs ⟨""⟩ (fun _ => "http://e") fixture.remote none).restaurants = some [] ∧
      (GetRestaurantsByIDs ⟨""⟩ (fun _ => "http://e") fixture.remote none).err = none ∧
      (GetRestaurantsByIDs ⟨""⟩ (fun _ => "http://e") fixture.remote none).events = [] ∧
      (GetRestaurantsByIDs ⟨""⟩ (fun _ => "http://e") fixture.remote none).self = ⟨""⟩) ∧
    ((GetRestaurantsByIDs ⟨""⟩ (fun _ => "http://e") fixture.remote (some [])).restaurants
        = some [] ∧
      (GetRestaurantsByIDs ⟨""⟩ (fun _ => "http://e") fixture.remote (some [])).err = none ∧
      (GetRestaurantsByIDs ⟨""⟩ (fun _ => "http://e") fixture.remote (some [])).events = [] ∧
      (GetRestaurantsByIDs ⟨""⟩ (fun _ => "http://e") fixture.remote (some [])).self = ⟨""⟩) :=
  ⟨GetRestaurantsByIDs_empty ⟨""⟩ (fun _ => "http://e") fixture.remote none rfl,
   GetRestaurantsByIDs_empty ⟨""⟩ (fun _ => "http://e") fixture.remote (some []) rfl⟩

/-- C10: for a non-empty id list and a response whose status code is not 200,
the client returns the nil sequence and the error
`error retrieving restaurants from RestaurantService`, whatever the body of the
response is, and the body is never read. -/
theorem GetRestaurantsByIDs_status_not_200 (c : client) (getenv : String → String)
    (httpGet : String → Except GoError http.Response) (ids : Slice Int)
    (res : http.Response)
    (hne : Slice.len ids ≠ 0)
    (hget : httpGet (requestURL (getBaseURL c getenv).1 (Slice.elems ids)) = Except.ok res)
    (hstatus : res.StatusCode ≠ 200) :
    (GetRestaurantsByIDs c getenv httpGet ids).restaurants = none ∧
      (GetRestaurantsByIDs c getenv httpGet ids).err
        = some ⟨"error retrieving restaurants from RestaurantService"⟩ ∧
      Event.ReadAll ∉ (GetRestaurantsByIDs c getenv httpGet ids).events := by
  unfold GetRestaurantsByIDs
  simp only [hne, if_false, hget, ne_eq, hstatus, not_false_eq_true, if_true]
  refine ⟨trivial, trivial, ?_⟩
  unfold getBaseURL
  split <;> simp

/-- Witness of C10: a 404 response carrying a body that would decode. -/
theorem GetRestaurantsByIDs_status_not_200_witness :
    (GetRestaurantsByIDs ⟨"http://r"⟩ (fun _ => "")
        (fun _ => Except.ok ⟨404, http.Body.valid (Json.array [])⟩) (some [9, 8])).restaurants
        = none ∧
      (GetRestaurantsByIDs ⟨"http://r"⟩ (fun _ => "")
        (fun _ => Except.ok ⟨404, http.Body.valid (Json.array [])⟩) (some [9, 8])).err
        = some ⟨"error retrieving restaurants from RestaurantService"⟩ ∧
      Event.ReadAll ∉ (GetRestaurantsByIDs ⟨"http://r"⟩ (fun _ => "")
        (fun _ => Except.ok ⟨404, http.Body.valid (Json.array [])⟩) (some [9, 8])).events :=
  GetRestaurantsByIDs_status_not_200 ⟨"http://r"⟩ (fun _ => "")
    (fun _ => Except.ok ⟨404, http.Body.valid (Json.array [])⟩) (some [9, 8])
    ⟨404, http.Body.valid (Json.array [])⟩ (by decide) rfl (by decide)

end client

/-! ## Auxiliary facts about decimal text -/

namespace strconv

theorem digitValue_digitChar (k : Nat) (hk : k < 10) : digitValue (Nat.digitChar k) = some k := by
  interval_cases k <;> decide

theorem parseDigits_toDigitsCore (fuel n : Nat) (ds : List Char) (h : n < fuel) :
    parseDigits (Nat.toDigitsCore 10 fuel n ds) 0 = parseDigits ds n := by
  induction fuel generalizing n ds with
  | zero => omega
  | succ fuel ih =>
    have hd := digitValue_digitChar (n % 10) (Nat.mod_lt _ (by decide))
    unfold Nat.toDigitsCore
    simp only
    split
    · rename_i h0
      have hn : n % 10 = n := by omega
      rw [hn] at hd ⊢
      simp only [parseDigits, hd]
      simp
    · rename_i h0
      rw [ih (n / 10) _ (by omega)]
      have : n / 10 * 10 + n % 10 = n := by omega
      simp only [parseDigits, hd, this]

theorem parseDigits_toDigits (n : Nat) : parseDigits (Nat.toDigits 10 n) 0 = some n := by
  unfold Nat.toDigits
  rw [parseDigits_toDigitsCore _ _ _ (Nat.lt_succ_self n)]
  rfl

theorem toDigitsCore_ne_nil (fuel n : Nat) (ds : List Char) (h : ds ≠ [] ∨ 0 < fuel) :
    Nat.toDigitsCore 10 fuel n ds ≠ [] := by
  induction fuel generalizing n ds with
  | zero =>
    rcases h with h | h
    · simpa [Nat.toDigitsCore] using h
    · omega
  | succ fuel ih =>
    unfold Nat.toDigitsCore
    simp only
    split
    · simp
    · exact ih _ _ (Or.inl (by simp))

theorem parseDecimal_digits (l : List Char) (n : Nat) (hl : l ≠ [])
    (hp : parseDigits l 0 = some n) : parseDecimal l = some (n : Int) := by
  cases l with
  | nil => exact absurd rfl hl
  | cons c cs =>
    have hc : digitValue c ≠ none := by
      intro h0
      simp [parseDigits, h0] at hp
    have h1 : c ≠ '-' := by
      intro h0; subst h0; exact hc (by decide)
    have h2 : c ≠ '+' := by
      intro h0; subst h0; exact hc (by decide)
    simp [parseDecimal, h1, h2, hp]

theorem parseDecimal_Itoa (i : Int) : parseDecimal (Itoa i).data = some i := by
  cases i with
  | ofNat m =>
    have hdata : (Itoa (Int.ofNat m)).data = Nat.toDigits 10 m := rfl
    rw [hdata]
    exact parseDecimal_digits _ m (toDigitsCore_ne_nil _ _ _ (Or.inr (Nat.succ_pos m)))
      (parseDigits_toDigits m)
  | negSucc m =>
    have hdata : (Itoa (Int.negSucc m)).data = '-' :: Nat.toDigits 10 (m + 1) := rfl
    rw [hdata]
    have hne : Nat.toDigits 10 (m + 1) ≠ [] :=
      toDigitsCore_ne_nil _ _ _ (Or.inr (Nat.succ_pos _))
    simp only [parseDecimal, hne, parseDigits_toDigits, if_true, if_false, Option.map_some']
    rw [Int.negSucc_eq]
    push_cast
    ring_nf

theorem parseDigits_no_comma (cs : List Char) (acc n : Nat)
    (hp : parseDigits cs acc = some n) : ',' ∉ cs := by
  induction cs generalizing acc with
  | nil => simp
  | cons c cs ih =>
    cases hc : digitValue c with
    | none => simp [parseDigits, hc] at hp
    | some d =>
      simp only [parseDigits, hc] at hp
      have h1 : c ≠ ',' := by
        intro h0
        have hcomma : digitValue ',' = none := by decide
        rw [h0, hcomma] at hc
        exact Option.noConfusion hc
      simp only [List.mem_cons, not_or]
      exact ⟨fun h => h1 h.symm, ih _ hp⟩

theorem parseDecimal_no_comma (cs : List Char) (i : Int)
    (hp : parseDecimal cs = some i) : ',' ∉ cs := by
  cases cs with
  | nil => simp
  | cons c cs =>
    simp only [parseDecimal] at hp
    simp only [List.mem_cons, not_or]
    by_cases h1 : c = '-'
    · rw [if_pos h1] at hp
      by_cases h0 : cs = []
      · rw [if_pos h0] at hp
        exact Option.noConfusion hp
      · rw [if_neg h0] at hp
        obtain ⟨n, hn, -⟩ := Option.map_eq_some'.1 hp
        exact ⟨by rw [h1]; decide, parseDigits_no_comma _ _ _ hn⟩
    · rw [if_neg h1] at hp
      by_cases h2 : c = '+'
      · rw [if_pos h2] at hp
        by_cases h0 : cs = []
        · rw [if_pos h0] at hp
          exact Option.noConfusion hp
        · rw [if_neg h0] at hp
          obtain ⟨n, hn, -⟩ := Option.map_eq_some'.1 hp
          exact ⟨by rw [h2]; decide, parseDigits_no_comma _ _ _ hn⟩
      · rw [if_neg h2] at hp
        obtain ⟨n, hn, -⟩ := Option.map_eq_some'.1 hp
        have := parseDigits_no_comma _ _ _ hn
        simpa only [List.mem_cons, not_or] using this

end strconv

namespace strings

theorem splitOnComma_no_comma (p : List Char) (hp : ',' ∉ p) : splitOnComma p = [p] := by
  induction p with
  | nil => rfl
  | cons c cs ih =>
    simp only [List.mem_cons, not_or] at hp
    have hc : c ≠ ',' := fun h => hp.1 h.symm
    simp [splitOnComma, hc, ih hp.2]

theorem splitOnComma_append (p rest : List Char) (hp : ',' ∉ p) :
    splitOnComma (p ++ ',' :: rest) = p :: splitOnComma rest := by
  induction p with
  | nil => simp [splitOnComma]
  | cons c cs ih =>
    simp only [List.mem_cons, not_or] at hp
    have hc : c ≠ ',' := fun h => hp.1 h.symm
    simp [splitOnComma, hc, ih hp.2]

theorem splitOnComma_joinComma (ps : List (List Char)) (hne : ps ≠ [])
    (hp : ∀ p ∈ ps, ',' ∉ p) : splitOnComma (joinComma ps) = ps := by
  induction ps with
  | nil => exact absurd rfl hne
  | cons p rest ih =>
    cases rest with
    | nil => simpa [joinComma] using splitOnComma_no_comma p (hp p (by simp))
    | cons q r =>
      simp only [joinComma]
      rw [splitOnComma_append _ _ (hp p (by simp)), ih (by simp) (fun x hx => hp x (by simp [hx]))]

theorem intercalate_go_data (acc s : String) (l : List String) :
    (String.intercalate.go acc s l).data
      = acc.data ++ (l.map (fun a => s.data ++ a.data)).flatten := by
  induction l generalizing acc with
  | nil => simp [String.intercalate.go]
  | cons a rest ih => simp [String.intercalate.go, ih, String.data_append]

theorem intercalate_comma_data (l : List String) :
    (String.intercalate "," l).data = joinComma (l.map String.data) := by
  cases l with
  | nil => rfl
  | cons a rest =>
    simp only [String.intercalate, intercalate_go_data]
    induction rest generalizing a with
    | nil => simp [joinComma]
    | cons b r ih =>
      have hb := ih b
      simp only [List.map_cons] at hb
      simp only [List.map_cons, List.flatten_cons, joinComma, ← hb]
      simp

theorem split_join_Itoa (ids : List Int) (hne : ids ≠ []) :
    (splitOnComma (String.intercalate "," (ids.map strconv.Itoa)).data).map strconv.parseDecimal
      = ids.map some := by
  rw [intercalate_comma_data, splitOnComma_joinComma]
  · simp [List.map_map, Function.comp, strconv.parseDecimal_Itoa]
  · simpa using hne
  · intro p hp
    simp only [List.map_map, List.mem_map, Function.comp] at hp
    obtain ⟨i, -, rfl⟩ := hp
    exact strconv.parseDecimal_no_comma _ i (strconv.parseDecimal_Itoa i)

end strings

/-! ## Restaurant lookup client: the request -/

namespace client

/-- Resolving the base URL makes no request. -/
theorem getBaseURL_no_request (c : client) (getenv : String → String) :
    (getBaseURL c getenv).2.2.filter Event.isGet = [] := by
  unfold getBaseURL
  split <;> rfl

/-- C11: for a non-empty id list the client makes exactly one request, to the
URL made of the base URL, then `/v1/restaurants?id=`, then the decimal texts of
the ids joined by commas, in input order and with duplicates kept; splitting
this joined text on the commas and reading each piece as a decimal integer
gives the ids back. -/
theorem GetRestaurantsByIDs_request_url (c : client) (getenv : String → String)
    (httpGet : String → Except GoError http.Response) (ids : Slice Int)
    (hne : Slice.len ids ≠ 0) :
    (GetRestaurantsByIDs c getenv httpGet ids).events.filter Event.isGet
        = [Event.Get ((getBaseURL c getenv).1 ++ "/v1/restaurants?id="
            ++ String.intercalate "," ((Slice.elems ids).map strconv.Itoa))] ∧
      (strings.splitOnComma
          (String.intercalate "," ((Slice.elems ids).map strconv.Itoa)).data).map
          strconv.parseDecimal
        = (Slice.elems ids).map some := by
  constructor
  · have hevs := getBaseURL_no_request c getenv
    unfold GetRestaurantsByIDs
    simp only [hne, if_false]
    rcases hb : getBaseURL c getenv with ⟨base, c', evs⟩
    rw [hb] at hevs
    simp only at hevs ⊢
    repeat' split
    all_goals simp [List.filter_append, hevs, Event.isGet, requestURL]
  · apply strings.split_join_Itoa
    intro h0
    rw [Slice.len_eq_length, h0] at hne
    exact hne rfl

/-- Witness of C11: the ids 9, 8, 9 with the base URL `http://r`. -/
theorem GetRestaurantsByIDs_request_url_witness :
    (GetRestaurantsByIDs ⟨"http://r"⟩ (fun _ => "") fixture.remote
        (some [9, 8, 9])).events.filter Event.isGet
        = [Event.Get "http://r/v1/restaurants?id=9,8,9"] ∧
      (strings.splitOnComma "9,8,9".data).map strconv.parseDecimal
        = [some 9, some 8, some 9] :=
  GetRestaurantsByIDs_request_url ⟨"http://r"⟩ (fun _ => "") fixture.remote (some [9, 8, 9])
    (by decide)

end client

/-! ## Request handler: the claims -/

namespace handlers

namespace Provider

/-- C12: when the path parameter `id` is not a valid integer, that is when
`strconv.Atoi` fails on it, the handler sets the status 400, writes no body and
makes no call of `FindAllOrdersByUserID` on the order service. -/
theorem FindOrdersForUser_invalid_id
    (orderService : Int → models.Orders × Option GoError) (param : String → String)
    (e : GoError) (hbad : strconv.Atoi (param "id") = Except.error e) :
    (FindOrdersForUser orderService param).writes = [Write.Status 400] ∧
      (FindOrdersForUser orderService param).serviceCalls = [] := by
  unfold FindOrdersForUser
  rw [hbad]
  exact ⟨rfl, rfl⟩

/-- Witness of C12: the parameter `invalid_id` of the handler test. -/
theorem FindOrdersForUser_invalid_id_witness :
    (FindOrdersForUser (fun _ => (some [some 0], none)) (fun _ => "invalid_id")).writes
        = [Write.Status 400] ∧
      (FindOrdersForUser (fun _ => (some [some 0], none)) (fun _ => "invalid_id")).serviceCalls
        = [] :=
  FindOrdersForUser_invalid_id (fun _ => (some [some 0], none)) (fun _ => "invalid_id")
    (strconv.numError "invalid_id" "invalid syntax") rfl

/-- C13: when the path parameter `id` parses to the integer `n`, the handler
calls `FindAllOrdersByUserID` on the order service once, with `n`; when the
service returns an error the handler sets the status 500 and writes no body,
the error taking no part in the response, and otherwise it answers with the
status 200 and, as JSON body, the order sequence the service returned. -/
theorem FindOrdersForUser_valid_id
    (orderService : Int → models.Orders × Option GoError) (param : String → String)
    (n : Int) (hok : strconv.Atoi (param "id") = Except.ok n) :
    (FindOrdersForUser orderService param).serviceCalls = [n] ∧
      (∀ err, (orderService n).2 = some err →
        (FindOrdersForUser orderService param).writes = [Write.Status 500]) ∧
      ((orderService n).2 = none →
        (FindOrdersForUser orderService param).writes
          = [Write.JSON 200 (orderService n).1]) := by
  unfold FindOrdersForUser
  rw [hok]
  simp only
  rcases orderService n with ⟨orders, err⟩
  cases err with
  | none => exact ⟨rfl, fun _ h => Option.noConfusion h, fun _ => rfl⟩
  | some e0 => exact ⟨rfl, fun _ _ => rfl, fun h => Option.noConfusion h⟩

/-- Witness of C13: the parameter `5` of the handler test, with a service that
fails for every user but user 5. -/
theorem FindOrdersForUser_valid_id_witness :
    (FindOrdersForUser
        (fun u => if u = 5 then (some [some 0], none) else (none, some ⟨"some error"⟩))
        (fun _ => "5")).serviceCalls = [5] ∧
      (∀ err,
        ((fun u => if u = 5 then (some [some 0], none) else (none, some ⟨"some error"⟩) :
          Int → models.Orders × Option GoError) 5).2 = some err →
        (FindOrdersForUser
          (fun u => if u = 5 then (some [some 0], none) else (none, some ⟨"some error"⟩))
          (fun _ => "5")).writes = [Write.Status 500]) ∧
      (((fun u => if u = 5 then (some [some 0], none) else (none, some ⟨"some error"⟩) :
          Int → models.Orders × Option GoError) 5).2 = none →
        (FindOrdersForUser
          (fun u => if u = 5 then (some [some 0], none) else (none, some ⟨"some error"⟩))
          (fun _ => "5")).writes
          = [Write.JSON 200
              ((fun u => if u = 5 then (some [some 0], none) else (none, some ⟨"some error"⟩) :
                Int → models.Orders × Option GoError) 5).1]) :=
  FindOrdersForUser_valid_id
    (fun u => if u = 5 then (some [some 0], none) else (none, some ⟨"some error"⟩))
    (fun _ => "5") 5 rfl

/-- The two answers of the handler test for the parameter `5`: status 500 when
the service fails, status 200 with the orders of the service otherwise. -/
theorem FindOrdersForUser_test_cases :
    FindOrdersForUser (fun _ => (none, some ⟨"some error"⟩)) (fun _ => "5")
        = ⟨[Write.Status 500], [5]⟩ ∧
      FindOrdersForUser (fun _ => (some [some 0], none)) (fun _ => "5")
        = ⟨[Write.JSON 200 (some [some 0])], [5]⟩ := by
  decide

end Provider

end handlers

/-! ## Outbound serialization: the claims -/

namespace json

/-- C14: the serialization of an enriched order has exactly the keys `id`,
`restaurant`, `total`, `currency_code` and `placed_at`, and its `restaurant`
member is an object with the single key `name`; hence two enriched orders that
agree on `ID`, `Total`, `CurrencyCode`, `PlacedAt` and on the name of the
attached restaurant, whatever their `UserID`, their `RestaurantID` and the `ID`
of the attached restaurant, have the same serialization. -/
theorem MarshalOrder_visible_fields (rfc3339 : Int → String)
    (o o' : models.Order) (r r' : models.Restaurant)
    (hr : o.Restaurant = some r) (hr' : o'.Restaurant = some r')
    (hid : o'.ID = o.ID) (htotal : o'.Total = o.Total)
    (hcur : o'.CurrencyCode = o.CurrencyCode) (hplaced : o'.PlacedAt = o.PlacedAt)
    (hname : r'.Name = r.Name) :
    (MarshalOrder rfc3339 o).keys = ["id", "restaurant", "total", "currency_code", "placed_at"] ∧
      ((MarshalOrder rfc3339 o).member "restaurant").map Json.keys = some ["name"] ∧
      MarshalOrder rfc3339 o' = MarshalOrder rfc3339 o := by
  refine ⟨rfl, ?_, ?_⟩
  · have hfind : (MarshalOrder rfc3339 o).member "restaurant"
        = some (MarshalRestaurant o.Restaurant) := by
      simp [MarshalOrder, Json.member, List.find?]
    rw [hfind, hr]
    rfl
  · simp only [MarshalOrder, hr, hr', hid, htotal, hcur, hplaced, MarshalRestaurant, hname]

/-- Witness of C14: two orders of different users and restaurants, the attached
restaurants having different identifiers and the same name. -/
theorem MarshalOrder_visible_fields_witness :
    (MarshalOrder (fun t => toString t)
        { fixture.order1 with Restaurant := some fixture.kfc }).keys
        = ["id", "restaurant", "total", "currency_code", "placed_at"] ∧
      ((MarshalOrder (fun t => toString t)
          { fixture.order1 with Restaurant := some fixture.kfc }).member "restaurant").map
          Json.keys = some ["name"] ∧
      MarshalOrder (fun t => toString t)
          { fixture.order1 with
            UserID := 7, RestaurantID := 11, Restaurant := some { ID := 11, Name := "KFC" } }
        = MarshalOrder (fun t => toString t)
          { fixture.order1 with Restaurant := some fixture.kfc } :=
  MarshalOrder_visible_fields (fun t => toString t)
    { fixture.order1 with Restaurant := some fixture.kfc }
    { fixture.order1 with
      UserID := 7, RestaurantID := 11, Restaurant := some { ID := 11, Name := "KFC" } }
    fixture.kfc { ID := 11, Name := "KFC" } rfl rfl rfl rfl rfl rfl rfl

end json

/-! ## Order repository: the claims -/

namespace repositories

/-- Reading a list back through its indices. -/
theorem map_getD_range (l : List models.Order) (d : models.Order) :
    (List.range l.length).map (fun a => l.getD a d) = l := by
  apply List.ext_getElem
  · simp
  · intro i h1 h2
    simp [List.getD_eq_getElem?_getD, List.getElem?_eq_getElem h2]

/-- The rows selected are the rows of the table that satisfy the `WHERE` clause. -/
theorem Query.select_perm (q : Query) (table : List Row) :
    (q.select table).Perm (table.filter (fun r => r.get q.whereColumn = q.whereValue)) :=
  List.perm_insertionSort _ _

/-- The rows selected come in the order the `ORDER BY` clause asks for. -/
theorem Query.select_sorted (q : Query) (table : List Row) :
    List.Pairwise q.before (q.select table) := by
  haveI : IsTotal Row q.before := ⟨fun x y => by
    unfold Query.before
    cases q.direction
    · exact le_total _ _
    · exact le_total _ _⟩
  haveI : IsTrans Row q.before := ⟨fun x y z => by
    unfold Query.before
    cases q.direction
    · exact fun h1 h2 => le_trans h1 h2
    · exact fun h1 h2 => le_trans h2 h1⟩
  exact List.sorted_insertionSort _ _

namespace orderRepository

/-- C15: for every user id and every content of the orders table, the
repository returns no error and a non-nil sequence of distinct order objects
that are exactly the persisted orders whose `UserID` is the given id, sorted by
`PlacedAt` descending, each with no attached restaurant; when no order matches,
the sequence is the empty non-nil sequence. -/
theorem FindAllOrdersByUserID_selects (table : List Row) (userID : Int) :
    (FindAllOrdersByUserID (Except.ok table) userID).1.2 = none ∧
      ∃ addrs : List Nat,
        (FindAllOrdersByUserID (Except.ok table) userID).1.1 = some (addrs.map some) ∧
        addrs.Nodup ∧
        (addrs.map (FindAllOrdersByUserID (Except.ok table) userID).2).Perm
          ((table.filter (fun r => r.user_id = userID)).map Row.toOrder) ∧
        orderService.DescendingByPlacedAt (FindAllOrdersByUserID (Except.ok table) userID).2
          (FindAllOrdersByUserID (Except.ok table) userID).1.1 ∧
        (∀ a ∈ addrs,
          ((FindAllOrdersByUserID (Except.ok table) userID).2 a).UserID = userID ∧
          ((FindAllOrdersByUserID (Except.ok table) userID).2 a).Restaurant = none) ∧
        ((∀ r ∈ table, r.user_id ≠ userID) →
          (FindAllOrdersByUserID (Except.ok table) userID).1.1 = some []) := by
  obtain ⟨q, hq⟩ : ∃ q : Query, q = ⟨Column.user_id, userID, Column.placed_at, Direction.DESC⟩ :=
    ⟨_, rfl⟩
  have hres : FindAllOrdersByUserID (Except.ok table) userID
      = ((some ((List.range (q.select table).length).map some), none),
          fun a => ((q.select table).map Row.toOrder).getD a zeroOrder) := by
    rw [hq]
    rfl
  have hfilter : table.filter (fun r => r.get q.whereColumn = q.whereValue)
      = table.filter (fun r => r.user_id = userID) := by
    rw [hq]
    rfl
  have hperm := q.select_perm table
  rw [hfilter] at hperm
  have hsorted := q.select_sorted table
  have hheap : (List.range (q.select table).length).map
      (fun a => ((q.select table).map Row.toOrder).getD a zeroOrder)
      = (q.select table).map Row.toOrder := by
    have := map_getD_range ((q.select table).map Row.toOrder) zeroOrder
    rwa [List.length_map] at this
  have hmem : ∀ a ∈ List.range (q.select table).length,
      ∃ r ∈ table.filter (fun r => r.user_id = userID),
        ((q.select table).map Row.toOrder).getD a zeroOrder = r.toOrder := by
    intro a ha
    have hin : ((q.select table).map Row.toOrder).getD a zeroOrder
        ∈ (q.select table).map Row.toOrder := by
      have hm := List.mem_map_of_mem
        (fun a => ((q.select table).map Row.toOrder).getD a zeroOrder) ha
      rwa [hheap] at hm
    obtain ⟨r, hr, hro⟩ := List.mem_map.1 hin
    exact ⟨r, hperm.mem_iff.1 hr, hro.symm⟩
  rw [hres]
  refine ⟨rfl, List.range (q.select table).length, rfl, List.nodup_range _, ?_, ?_, ?_, ?_⟩
  · show ((List.range (q.select table).length).map
      (fun a => ((q.select table).map Row.toOrder).getD a zeroOrder)).Perm _
    rw [hheap]
    exact hperm.map _
  · unfold orderService.DescendingByPlacedAt orderService.placedAts
    have hid : (Slice.elems (some ((List.range (q.select table).length).map some))).filterMap id
        = List.range (q.select table).length := by
      simp [Slice.elems, List.filterMap_map]
    simp only [hid]
    have hmap : (List.range (q.select table).length).map
        (fun a => (((q.select table).map Row.toOrder).getD a zeroOrder).PlacedAt)
        = ((q.select table).map Row.toOrder).map (fun o => o.PlacedAt) := by
      have hm := congrArg (List.map (fun o : models.Order => o.PlacedAt)) hheap
      rw [List.map_map] at hm
      exact hm
    rw [hmap, List.map_map, List.pairwise_map]
    refine hsorted.imp ?_
    intro x y hxy
    rw [hq] at hxy
    exact hxy
  · intro a ha
    obtain ⟨r, hr, hro⟩ := hmem a ha
    simp only [hro]
    have huser : r.user_id = userID := by simpa using (List.mem_filter.1 hr).2
    exact ⟨huser, rfl⟩
  · intro hnone
    have hempty : table.filter (fun r => r.user_id = userID) = [] := by
      rw [List.filter_eq_nil_iff]
      intro r hr
      simpa using hnone r hr
    rw [hempty] at hperm
    rw [List.Perm.eq_nil hperm]
    rfl

/-- The case of the repository test: of the three orders stored, the two of
user 5 are returned, restaurant 9 (placed 36h ago) before restaurant 8 (placed
72h ago); for a user without orders the sequence is empty and not nil. -/
theorem FindAllOrdersByUserID_test_case :
    (FindAllOrdersByUserID (Except.ok fixture.table) 5).1 = (some [some 0, some 1], none) ∧
      ((FindAllOrdersByUserID (Except.ok fixture.table) 5).2 0).RestaurantID = 9 ∧
      ((FindAllOrdersByUserID (Except.ok fixture.table) 5).2 1).RestaurantID = 8 ∧
      (FindAllOrdersByUserID (Except.ok fixture.table) 6).1 = (some [], none) := by
  decide

end orderRepository

end repositories

/-! ## Order service: which restaurant is reported, what is written -/

namespace orderService

/-- Attaching a restaurant to an order leaves every `RestaurantID` as it is. -/
theorem update_RestaurantID (h : Heap) (a b : Nat) (x : Option models.Restaurant) :
    (Function.update h a { h a with Restaurant := x } b).RestaurantID = (h b).RestaurantID := by
  by_cases hb : b = a
  · subst hb; simp
  · simp [Function.update_noteq hb]

/-- The third loop stops at the first order whose restaurant is not in the map. -/
theorem attachRestaurants_first_missing (m : RestaurantMap) (pre : List Nat) (a : Nat)
    (post : List Nat) (h : Heap)
    (hpre : ∀ b ∈ pre, m (h b).RestaurantID ≠ none)
    (hmiss : m (h a).RestaurantID = none) :
    (attachRestaurants m ((pre ++ a :: post).map some) h).1
      = AttachResult.missing (h a).RestaurantID := by
  induction pre generalizing h with
  | nil => simp [attachRestaurants, hmiss]
  | cons b rest ih =>
    cases hmb : m (h b).RestaurantID with
    | none => exact absurd hmb (hpre b (List.mem_cons_self _ _))
    | some r =>
      have hstep : attachRestaurants m (((b :: rest) ++ a :: post).map some) h
          = attachRestaurants m ((rest ++ a :: post).map some)
              (Function.update h b { h b with Restaurant := some r }) := by
        simp [attachRestaurants, hmb]
      rw [hstep, ih]
      · rw [update_RestaurantID]
      · intro b' hb'
        rw [update_RestaurantID]
        exact hpre b' (List.mem_cons_of_mem _ hb')
      · rw [update_RestaurantID]
        exact hmiss

/-- The third loop depends on the map only through the identifiers that the
orders reference. -/
theorem attachRestaurants_congr (m1 m2 : RestaurantMap) (addrs : List Nat) (h : Heap)
    (hm : ∀ a ∈ addrs, m1 (h a).RestaurantID = m2 (h a).RestaurantID) :
    attachRestaurants m1 (addrs.map some) h = attachRestaurants m2 (addrs.map some) h := by
  induction addrs generalizing h with
  | nil => rfl
  | cons a rest ih =>
    have ha := hm a (List.mem_cons_self _ _)
    cases hma : m2 (h a).RestaurantID with
    | none =>
      rw [hma] at ha
      simp [attachRestaurants, ha, hma]
    | some r =>
      rw [hma] at ha
      simp only [List.map_cons, attachRestaurants, ha, hma]
      apply ih
      intro b hb
      rw [update_RestaurantID]
      exact hm b (List.mem_cons_of_mem _ hb)

/-- C16: the identifier named in the error is the `RestaurantID` of the first
order of the sequence whose restaurant is absent from the lookup result,
however many orders that come after it reference absent restaurants too. -/
theorem FindAllOrdersByUserID_first_missing
    (orderRepository : Int → models.Orders × Option GoError)
    (restaurantClient : List Int → models.Restaurants × Option GoError)
    (h : Heap) (userID : Int) (orders : models.Orders) (pre : List Nat) (a : Nat)
    (post : List Nat) (restaurants : models.Restaurants) (rs : List models.Restaurant)
    (hrepo : orderRepository userID = (orders, none))
    (hord : Slice.elems orders = (pre ++ a :: post).map some)
    (hcl : restaurantClient (restaurantIDsOf h (pre ++ a :: post)) = (restaurants, none))
    (hrs : Slice.elems restaurants = rs.map some)
    (hfound : ∀ b ∈ pre, (h b).RestaurantID ∈ rs.map (fun r => r.ID))
    (hmiss : (h a).RestaurantID ∉ rs.map (fun r => r.ID)) :
    (FindAllOrdersByUserID orderRepository restaurantClient h userID).outcome
      = Outcome.ret none
          (some ⟨"restaurant with ID " ++ toString (h a).RestaurantID ++ " not found"⟩) := by
  obtain ⟨m, hspec, hout, -, -⟩ := run_of_lookup orderRepository restaurantClient h userID
    orders (pre ++ a :: post) restaurants rs hrepo hord (by simp) hcl hrs
  rw [hout, attachRestaurants_first_missing m pre a post h ?_ ((hspec _).2 hmiss)]
  · rfl
  · intro b hb hnone
    obtain ⟨r, -, -, hr⟩ := (hspec _).1 (hfound b hb)
    rw [hnone] at hr
    exact Option.noConfusion hr

/-- Witness of C16: the orders of the test, restaurants 9 then 8, with an empty
lookup result: both restaurants are absent and the error names 9. -/
theorem FindAllOrdersByUserID_first_missing_witness :
    (FindAllOrdersByUserID fixture.repo (fun _ => (some [], none)) fixture.heap 5).outcome
      = Outcome.ret none (some ⟨"restaurant with ID 9 not found"⟩) :=
  FindAllOrdersByUserID_first_missing fixture.repo (fun _ => (some [], none)) fixture.heap 5
    (some [some 0, some 1]) [] 0 [1] (some []) [] rfl rfl rfl rfl (by decide) (by decide)

/-- C17: when the service returns without error, the returned sequence is the
one of the repository and, at every index, the order has the `ID`, `UserID`,
`RestaurantID`, `Total`, `CurrencyCode` and `PlacedAt` it had when the
repository returned it; the restaurant attached to it is one of the records
the lookup client returned, as returned. -/
theorem FindAllOrdersByUserID_frame
    (orderRepository : Int → models.Orders × Option GoError)
    (restaurantClient : List Int → models.Restaurants × Option GoError)
    (h : Heap) (userID : Int) (orders : models.Orders) (addrs : List Nat)
    (restaurants : models.Restaurants) (rs : List models.Restaurant)
    (result : models.Orders)
    (hrepo : orderRepository userID = (orders, none))
    (hord : Slice.elems orders = addrs.map some)
    (hcl : restaurantClient (restaurantIDsOf h addrs) = (restaurants, none))
    (hrs : Slice.elems restaurants = rs.map some)
    (hok : (FindAllOrdersByUserID orderRepository restaurantClient h userID).outcome
      = Outcome.ret result none) :
    result = orders ∧
      ∀ (i a : Nat), (Slice.elems result)[i]? = some (some a) →
        (Slice.elems orders)[i]? = some (some a) ∧
        ((FindAllOrdersByUserID orderRepository restaurantClient h userID).heap a).ID
          = (h a).ID ∧
        ((FindAllOrdersByUserID orderRepository restaurantClient h userID).heap a).UserID
          = (h a).UserID ∧
        ((FindAllOrdersByUserID orderRepository restaurantClient h userID).heap a).RestaurantID
          = (h a).RestaurantID ∧
        ((FindAllOrdersByUserID orderRepository restaurantClient h userID).heap a).Total
          = (h a).Total ∧
        ((FindAllOrdersByUserID orderRepository restaurantClient h userID).heap a).CurrencyCode
          = (h a).CurrencyCode ∧
        ((FindAllOrdersByUserID orderRepository restaurantClient h userID).heap a).PlacedAt
          = (h a).PlacedAt ∧
        ∃ r ∈ rs,
          ((FindAllOrdersByUserID orderRepository restaurantClient h userID).heap a).Restaurant
            = some r := by
  have hsame := run_ok_result orderRepository restaurantClient h userID result hok
  rw [hrepo] at hsame
  have hres : result = orders := (congrArg Prod.fst hsame).symm
  subst hres
  refine ⟨rfl, fun i a hi => ?_⟩
  have hmem : some a ∈ addrs.map some := by
    rw [← hord]
    exact List.getElem?_mem hi
  have ha : a ∈ addrs := by simpa using hmem
  have hne : addrs ≠ [] := List.ne_nil_of_mem ha
  obtain ⟨m, hspec, hout, hheap, -⟩ := run_of_lookup orderRepository restaurantClient h
    userID result addrs restaurants rs hrepo hord hne hcl hrs
  obtain ⟨pre, post, hsplit, hpre, -, hend⟩ := attachRestaurants_split m addrs h
  rcases hend with ⟨hpost, -⟩ | ⟨a', rest, -, -, hmissing⟩
  · have hap : a ∈ pre := by simpa [hsplit, hpost] using ha
    obtain ⟨r, hr, hval⟩ := hpre a hap
    have hin : (h a).RestaurantID ∈ rs.map (fun r => r.ID) := by
      by_contra hnot
      rw [(hspec _).2 hnot] at hr
      exact Option.noConfusion hr
    obtain ⟨r', hr', -, hget⟩ := (hspec _).1 hin
    have hrr : r' = r := by
      rw [hr] at hget
      exact (Option.some.inj hget).symm
    subst hrr
    rw [hheap, hval]
    exact ⟨hi, rfl, rfl, rfl, rfl, rfl, rfl, r', hr', rfl⟩
  · exfalso
    rw [hout, hmissing] at hok
    simp [outcomeOf] at hok

/-- Witness of C17: the orders of the test with both restaurants returned. -/
theorem FindAllOrdersByUserID_frame_witness :
    (some [some 0, some 1] : models.Orders) = some [some 0, some 1] ∧
      ∀ (i a : Nat), (Slice.elems (some [some 0, some 1] : models.Orders))[i]? = some (some a) →
        (Slice.elems (some [some 0, some 1] : models.Orders))[i]? = some (some a) ∧
        ((FindAllOrdersByUserID fixture.repo
          (fun _ => (some [some fixture.nandos, some fixture.kfc], none))
          fixture.heap 5).heap a).ID = (fixture.heap a).ID ∧
        ((FindAllOrdersByUserID fixture.repo
          (fun _ => (some [some fixture.nandos, some fixture.kfc], none))
          fixture.heap 5).heap a).UserID = (fixture.heap a).UserID ∧
        ((FindAllOrdersByUserID fixture.repo
          (fun _ => (some [some fixture.nandos, some fixture.kfc], none))
          fixture.heap 5).heap a).RestaurantID = (fixture.heap a).RestaurantID ∧
        ((FindAllOrdersByUserID fixture.repo
          (fun _ => (some [some fixture.nandos, some fixture.kfc], none))
          fixture.heap 5).heap a).Total = (fixture.heap a).Total ∧
        ((FindAllOrdersByUserID fixture.repo
          (fun _ => (some [some fixture.nandos, some fixture.kfc], none))
          fixture.heap 5).heap a).CurrencyCode = (fixture.heap a).CurrencyCode ∧
        ((FindAllOrdersByUserID fixture.repo
          (fun _ => (some [some fixture.nandos, some fixture.kfc], none))
          fixture.heap 5).heap a).PlacedAt = (fixture.heap a).PlacedAt ∧
        ∃ r ∈ [fixture.nandos, fixture.kfc],
          ((FindAllOrdersByUserID fixture.repo
            (fun _ => (some [some fixture.nandos, some fixture.kfc], none))
            fixture.heap 5).heap a).Restaurant = some r :=
  FindAllOrdersByUserID_frame fixture.repo
    (fun _ => (some [some fixture.nandos, some fixture.kfc], none)) fixture.heap 5
    (some [some 0, some 1]) [0, 1] (some [some fixture.nandos, some fixture.kfc])
    [fixture.nandos, fixture.kfc] (some [some 0, some 1]) rfl rfl rfl rfl (by decide)

/-- The result of the test, evaluated: the first order carries restaurant 9
(Nandos) and total 2500, the second restaurant 8 (KFC) and total 1000. -/
theorem FindAllOrdersByUserID_test_result :
    (FindAllOrdersByUserID fixture.repo
        (fun _ => (some [some fixture.nandos, some fixture.kfc], none)) fixture.heap 5).heap 0
        = { fixture.order2 with Restaurant := some fixture.nandos } ∧
      (FindAllOrdersByUserID fixture.repo
        (fun _ => (some [some fixture.nandos, some fixture.kfc], none)) fixture.heap 5).heap 1
        = { fixture.order1 with Restaurant := some fixture.kfc } := by
  decide

/-- C18: for one repository output and two lookup results, each with pairwise
distinct identifiers, that hold the same restaurant for every identifier the
orders reference, whatever the order of the restaurants in the two results and
whatever other restaurants they hold, the service returns the same values and
leaves the order objects in the same state. The proof needs the identifiers of
the second result to be distinct; those of the first are then distinct on the
referenced identifiers by the agreement of the two results. -/
theorem FindAllOrdersByUserID_lookup_order_irrelevant
    (orderRepository : Int → models.Orders × Option GoError)
    (client1 client2 : List Int → models.Restaurants × Option GoError)
    (h : Heap) (userID : Int) (orders : models.Orders) (addrs : List Nat)
    (restaurants1 restaurants2 : models.Restaurants) (rs1 rs2 : List models.Restaurant)
    (hrepo : orderRepository userID = (orders, none))
    (hord : Slice.elems orders = addrs.map some)
    (hcl1 : client1 (restaurantIDsOf h addrs) = (restaurants1, none))
    (hrs1 : Slice.elems restaurants1 = rs1.map some)
    (hcl2 : client2 (restaurantIDsOf h addrs) = (restaurants2, none))
    (hrs2 : Slice.elems restaurants2 = rs2.map some)
    (hnd1 : (rs1.map (fun r => r.ID)).Nodup) (hnd2 : (rs2.map (fun r => r.ID)).Nodup)
    (hagree : ∀ a ∈ addrs,
      rs1.filter (fun r => r.ID = (h a).RestaurantID)
        = rs2.filter (fun r => r.ID = (h a).RestaurantID)) :
    (FindAllOrdersByUserID orderRepository client1 h userID).outcome
        = (FindAllOrdersByUserID orderRepository client2 h userID).outcome ∧
      (FindAllOrdersByUserID orderRepository client1 h userID).heap
        = (FindAllOrdersByUserID orderRepository client2 h userID).heap := by
  have _ := hnd1
  by_cases hne : addrs = []
  · subst hne
    have hzero : Slice.len orders = 0 := by
      rw [Slice.len_eq_length, hord]
      rfl
    obtain ⟨ho1, hh1, -⟩ := run_of_empty orderRepository client1 h userID orders hrepo hzero
    obtain ⟨ho2, hh2, -⟩ := run_of_empty orderRepository client2 h userID orders hrepo hzero
    exact ⟨by rw [ho1, ho2], by rw [hh1, hh2]⟩
  · obtain ⟨m1, hspec1, hout1, hheap1, -⟩ := run_of_lookup orderRepository client1 h userID
      orders addrs restaurants1 rs1 hrepo hord hne hcl1 hrs1
    obtain ⟨m2, hspec2, hout2, hheap2, -⟩ := run_of_lookup orderRepository client2 h userID
      orders addrs restaurants2 rs2 hrepo hord hne hcl2 hrs2
    have hmem : ∀ a ∈ addrs, ∀ r, (r ∈ rs1 ∧ r.ID = (h a).RestaurantID)
        ↔ (r ∈ rs2 ∧ r.ID = (h a).RestaurantID) := by
      intro a ha r
      have h1 : r ∈ rs1.filter (fun r => r.ID = (h a).RestaurantID)
          ↔ r ∈ rs2.filter (fun r => r.ID = (h a).RestaurantID) := by
        rw [hagree a ha]
      simpa [List.mem_filter] using h1
    have hmaps : ∀ a ∈ addrs, m1 (h a).RestaurantID = m2 (h a).RestaurantID := by
      intro a ha
      by_cases hin : (h a).RestaurantID ∈ rs1.map (fun r => r.ID)
      · obtain ⟨r1, hr1, hid1, hget1⟩ := (hspec1 _).1 hin
        have hr12 := ((hmem a ha r1).1 ⟨hr1, hid1⟩).1
        have hin2 : (h a).RestaurantID ∈ rs2.map (fun r => r.ID) :=
          List.mem_map.2 ⟨r1, hr12, hid1⟩
        obtain ⟨r2, hr2, hid2, hget2⟩ := (hspec2 _).1 hin2
        have heq : r1 = r2 :=
          List.inj_on_of_nodup_map hnd2 hr12 hr2 (by rw [hid1, hid2])
        rw [hget1, hget2, heq]
      · have hin2 : (h a).RestaurantID ∉ rs2.map (fun r => r.ID) := by
          intro hin2
          obtain ⟨r2, hr2, hid2⟩ := List.mem_map.1 hin2
          exact hin (List.mem_map.2 ⟨r2, ((hmem a ha r2).2 ⟨hr2, hid2⟩).1, hid2⟩)
        rw [(hspec1 _).2 hin, (hspec2 _).2 hin2]
    have hsame := attachRestaurants_congr m1 m2 addrs h hmaps
    exact ⟨by rw [hout1, hout2, hsame], by rw [hheap1, hheap2, hsame]⟩

/-- Witness of C18: the orders of the test, with the lookup results
Nandos, KFC and, in another order and with a restaurant no order references,
restaurant 7, KFC, Nandos. -/
theorem FindAllOrdersByUserID_lookup_order_irrelevant_witness :
    (FindAllOrdersByUserID fixture.repo
        (fun _ => (some [some fixture.nandos, some fixture.kfc], none)) fixture.heap 5).outcome
        = (FindAllOrdersByUserID fixture.repo
            (fun _ => (some [some ⟨7, "Subway"⟩, some fixture.kfc, some fixture.nandos], none))
            fixture.heap 5).outcome ∧
      (FindAllOrdersByUserID fixture.repo
        (fun _ => (some [some fixture.nandos, some fixture.kfc], none)) fixture.heap 5).heap
        = (FindAllOrdersByUserID fixture.repo
            (fun _ => (some [some ⟨7, "Subway"⟩, some fixture.kfc, some fixture.nandos], none))
            fixture.heap 5).heap :=
  FindAllOrdersByUserID_lookup_order_irrelevant fixture.repo
    (fun _ => (some [some fixture.nandos, some fixture.kfc], none))
    (fun _ => (some [some ⟨7, "Subway"⟩, some fixture.kfc, some fixture.nandos], none))
    fixture.heap 5 (some [some 0, some 1]) [0, 1]
    (some [some fixture.nandos, some fixture.kfc])
    (some [some ⟨7, "Subway"⟩, some fixture.kfc, some fixture.nandos])
    [fixture.nandos, fixture.kfc] [⟨7, "Subway"⟩, fixture.kfc, fixture.nandos]
    rfl rfl rfl rfl rfl rfl (by decide) (by decide) (by decide)

end orderService
